import Mathlib

/-!
Shallow embedding of the k8s-performance-analyzer core (main.go): the
metrics sampling loop (`collectMetrics`), the ownership resolver
(`getDeploymentForPod`) and the deployment aggregator
(`aggregateDeploymentMetrics`), together with theorems settling the
frozen claims about them.

Modelling conventions:
- Go `int64` values (milli-cores, bytes) are Lean `Int`; Go integer
  division truncates toward zero, which is `Int.tdiv`.
- Go maps keyed by strings are association lists with `lookupA` (map
  indexing) and `upsert` (map assignment).  All quantities computed by
  iterating over a map here (sums, maxima, counts) are independent of
  iteration order, so the list order stands in for Go's arbitrary map
  iteration order.
- A Go runtime panic (the unguarded integer division in the aggregator)
  is modelled by an `Option` result: `none` means the program crashes.
- Fallible API fetches are `Option` values supplied by the environment:
  `none` is a failed call.  The sampler's API-call and sleep counts are
  carried in `CollectState` to make the control flow (which calls happen
  on which branch) visible to theorems.
-/

/-- Association-list lookup, modelling Go map indexing `m[k]`. -/
def lookupA {β : Type} : List (String × β) → String → Option β
  | [], _ => none
  | (k, v) :: rest, key => if k = key then some v else lookupA rest key

/-- Association-list update, modelling Go map assignment `m[k] = v`
(replaces the entry if the key is present, otherwise appends it). -/
def upsert {β : Type} : List (String × β) → String → β → List (String × β)
  | [], key, v => [(key, v)]
  | (k, w) :: rest, key, v =>
    if k = key then (key, v) :: rest else (k, w) :: upsert rest key v

/-- Go's conditional maximum update: `if obs > cur then cur = obs`. -/
def goMax (cur obs : Int) : Int := if obs > cur then obs else cur

/-- ContainerMetrics from main.go: per-container running maxima. -/
structure ContainerMetrics where
  MaxCPU : Int
  MaxMemory : Int
deriving DecidableEq

/-- PodMetrics from main.go.  `MaxCPU`/`MaxMemory` exist in the Go struct
but are never written by the program; they stay 0. -/
structure PodMetrics where
  MaxCPU : Int
  MaxMemory : Int
  Namespace : String
  Containers : List (String × ContainerMetrics)
deriving DecidableEq

/-- NodeMetrics from main.go: per-node running maxima. -/
structure NodeMetrics where
  MaxCPU : Int
  MaxMemory : Int
deriving DecidableEq

/-- MetricsData from main.go: the snapshot accumulator.  The pod map is
keyed by `pod.Name` alone (not namespace-qualified). -/
structure MetricsData where
  PodMetrics : List (String × PodMetrics)
  NodeMetrics : List (String × NodeMetrics)
deriving DecidableEq

/-- One container's observed usage in a pod-metrics API item
(`container.Usage.Cpu().MilliValue()` / `container.Usage.Memory().Value()`). -/
structure SampleContainer where
  Name : String
  UsageCPU : Int
  UsageMemory : Int
deriving DecidableEq

/-- One pod's item in a pod-metrics API response. -/
structure SamplePod where
  Name : String
  Namespace : String
  Containers : List SampleContainer
deriving DecidableEq

/-- One node's item in a node-metrics API response. -/
structure SampleNode where
  Name : String
  UsageCPU : Int
  UsageMemory : Int
deriving DecidableEq

/-- The metrics source environment: the probe outcome and, for each
iteration index, the result of that iteration's pod and node list calls
(`none` models a failed call). -/
structure MetricsSource where
  probeOK : Bool
  podSamples : Nat → Option (List SamplePod)
  nodeSamples : Nat → Option (List SampleNode)

/-- checkMetricsServer from main.go: one probe call against the metrics
source; on failure it returns an error (here the error message). -/
def checkMetricsServer (src : MetricsSource) : Option String :=
  if src.probeOK then none
  else some "erro ao conectar com o Metrics Server"

/-- Fold one observed container sample into a container accumulator
(the two `if ... > ...` maximum updates in collectMetrics). -/
def foldContainer (cm : ContainerMetrics) (sc : SampleContainer) : ContainerMetrics :=
  { MaxCPU := goMax cm.MaxCPU sc.UsageCPU
    MaxMemory := goMax cm.MaxMemory sc.UsageMemory }

/-- Fold one pod item's containers into a pod accumulator: each container
entry is created lazily (`&ContainerMetrics\x7b\x7d`, i.e. zeros) and then
max-updated. -/
def foldSamplePod (pm : PodMetrics) (sp : SamplePod) : PodMetrics :=
  { pm with
    Containers := sp.Containers.foldl
      (fun cs sc =>
        upsert cs sc.Name (foldContainer ((lookupA cs sc.Name).getD ⟨0, 0⟩) sc))
      pm.Containers }

/-- Fold a successful pod-metrics response into the pod map: entries are
keyed by `pod.Name` alone; a missing entry is created with the pod's
namespace (of this first observation) and an empty container map. -/
def foldPodItems (m : List (String × PodMetrics)) (items : List SamplePod) :
    List (String × PodMetrics) :=
  items.foldl
    (fun m sp =>
      upsert m sp.Name
        (foldSamplePod ((lookupA m sp.Name).getD ⟨0, 0, sp.Namespace, []⟩) sp))
    m

/-- Fold a successful node-metrics response into the node map. -/
def foldNodeItems (m : List (String × NodeMetrics)) (items : List SampleNode) :
    List (String × NodeMetrics) :=
  items.foldl
    (fun m nd =>
      let cur := (lookupA m nd.Name).getD ⟨0, 0⟩
      upsert m nd.Name ⟨goMax cur.MaxCPU nd.UsageCPU, goMax cur.MaxMemory nd.UsageMemory⟩)
    m

/-- State of the sampling loop: the accumulated snapshot plus counts of
pod-list calls, node-list calls and interval sleeps performed. -/
structure CollectState where
  data : MetricsData
  podFetches : Nat
  nodeFetches : Nat
  sleeps : Nat
deriving DecidableEq

/-- One iteration of the sampling loop in collectMetrics.  A failed pod
fetch `continue`s before the node fetch and before the sleep; a failed
node fetch `continue`s after the pod updates but before the sleep; the
sleep runs only at the end of a fully successful iteration. -/
def collectStep (src : MetricsSource) (i : Nat) (st : CollectState) : CollectState :=
  match src.podSamples i with
  | none => { st with podFetches := st.podFetches + 1 }
  | some pitems =>
    let st1 : CollectState :=
      { st with
        podFetches := st.podFetches + 1
        data := { st.data with PodMetrics := foldPodItems st.data.PodMetrics pitems } }
    match src.nodeSamples i with
    | none => { st1 with nodeFetches := st1.nodeFetches + 1 }
    | some nitems =>
      { st1 with
        nodeFetches := st1.nodeFetches + 1
        data := { st1.data with NodeMetrics := foldNodeItems st1.data.NodeMetrics nitems }
        sleeps := st1.sleeps + 1 }

/-- Empty snapshot (`make(map...)` twice). -/
def emptyMetricsData : MetricsData := ⟨[], []⟩

/-- State of the loop after its first `n` iterations (iteration `k` uses
the sources at index `k`, in increasing order). -/
def collectLoop (src : MetricsSource) : Nat → CollectState
  | 0 => ⟨emptyMetricsData, 0, 0, 0⟩
  | n + 1 => collectStep src n (collectLoop src n)

/-- Fixed sampling interval: `30 * time.Second` in nanoseconds. -/
def sampleInterval : Int := 30 * 1000000000

/-- Iteration count `int(period / interval)`; Go duration division
truncates toward zero, and a non-positive count runs the loop zero
times, hence `Int.toNat ∘ Int.tdiv`. -/
def iterationCount (period : Int) : Nat := (Int.tdiv period sampleInterval).toNat

/-- Outcome of collectMetrics plus the instrumented call counts: when
the probe fails the function returns `(nil, err)` having made no pod or
node fetch; otherwise it runs the loop. -/
structure CollectRun where
  result : Option MetricsData
  podFetches : Nat
  nodeFetches : Nat
  sleeps : Nat
deriving DecidableEq

/-- collectMetrics from main.go (instrumented form). -/
def collectRun (src : MetricsSource) (period : Int) : CollectRun :=
  match checkMetricsServer src with
  | some _ => ⟨none, 0, 0, 0⟩
  | none =>
    let st := collectLoop src (iterationCount period)
    ⟨some st.data, st.podFetches, st.nodeFetches, st.sleeps⟩

/-- collectMetrics from main.go: `none` is the error return (probe
failed), otherwise the accumulated snapshot. -/
def collectMetrics (src : MetricsSource) (period : Int) : Option MetricsData :=
  (collectRun src period).result

/-- OwnerReference (kind + name) as used by the resolver. -/
structure OwnerReference where
  Kind : String
  Name : String
deriving DecidableEq

/-- One container of a pod spec; `Limits.Cpu()`/`Limits.Memory()` of an
absent limit is the zero quantity, so a limit is modelled as its value
with `IsZero()` being `= 0`. -/
structure ContainerSpec where
  Name : String
  LimitsCPU : Int
  LimitsMemory : Int
deriving DecidableEq

/-- The parts of a corev1.Pod the core reads. -/
structure Pod where
  Name : String
  Namespace : String
  OwnerReferences : List OwnerReference
  SpecContainers : List ContainerSpec
deriving DecidableEq

/-- Replica-set lookup capability: given namespace and name, `none` is a
failed Get (any error) and `some refs` is the fetched replica-set's own
owner references. -/
def RsLookup : Type := String → String → Option (List OwnerReference)

/-- Inner loop of getDeploymentForPod: first owner reference of kind
"Deployment" in the replica-set's owner list, returning its name. -/
def findDeploymentOwner : List OwnerReference → Option String
  | [] => none
  | o :: rest => if o.Kind = "Deployment" then some o.Name else findDeploymentOwner rest

/-- Outer loop of getDeploymentForPod over the pod's owner references: a
failed replica-set fetch, or a replica-set without a Deployment owner,
falls through to the remaining references; no match yields `""`. -/
def scanOwnerRefs (rsGet : RsLookup) (ns : String) : List OwnerReference → String
  | [] => ""
  | o :: rest =>
    if o.Kind = "ReplicaSet" then
      match rsGet ns o.Name with
      | none => scanOwnerRefs rsGet ns rest
      | some rsOwners =>
        match findDeploymentOwner rsOwners with
        | some d => d
        | none => scanOwnerRefs rsGet ns rest
    else scanOwnerRefs rsGet ns rest

/-- getDeploymentForPod from main.go.  The Go function's error result is
always nil (fetch errors are swallowed by `continue`), so the model
returns only the name; `""` means no owning deployment. -/
def getDeploymentForPod (rsGet : RsLookup) (pod : Pod) : String :=
  scanOwnerRefs rsGet pod.Namespace pod.OwnerReferences

/-- DeploymentMetrics from main.go.  `Recommendations` exists in the Go
struct but is never written by the aggregator. -/
structure DeploymentMetrics where
  Name : String
  Namespace : String
  Pods : List String
  MaxCPU : Int
  MaxMemory : Int
  AvgCPU : Int
  AvgMemory : Int
  TotalPods : Nat
  PodsWithoutLimits : Nat
  Recommendations : List String
deriving DecidableEq

/-- Fresh aggregate record created on first pod attributed to a key. -/
def newDeploymentMetrics (name ns : String) : DeploymentMetrics :=
  { Name := name, Namespace := ns, Pods := [], MaxCPU := 0, MaxMemory := 0
    AvgCPU := 0, AvgMemory := 0, TotalPods := 0, PodsWithoutLimits := 0
    Recommendations := [] }

/-- The `hasLimits` loop: true only if every spec container has a
non-zero CPU limit and a non-zero memory limit. -/
def podHasLimits (pod : Pod) : Bool :=
  pod.SpecContainers.all (fun c => !(c.LimitsCPU == 0) && !(c.LimitsMemory == 0))

/-- Maximum fold over a pod's container metrics map
(the `if containerMetrics.MaxCPU > dm.MaxCPU` updates). -/
def containersMaxCPUFold (init : Int) (cs : List (String × ContainerMetrics)) : Int :=
  cs.foldl (fun a c => goMax a c.2.MaxCPU) init

/-- Maximum fold over a pod's container memory maxima. -/
def containersMaxMemoryFold (init : Int) (cs : List (String × ContainerMetrics)) : Int :=
  cs.foldl (fun a c => goMax a c.2.MaxMemory) init

/-- Running total `totalCPU` over a pod's container metrics map. -/
def containersSumCPU (cs : List (String × ContainerMetrics)) : Int :=
  cs.foldl (fun a c => a + c.2.MaxCPU) 0

/-- Running total `totalMemory` over a pod's container metrics map. -/
def containersSumMemory (cs : List (String × ContainerMetrics)) : Int :=
  cs.foldl (fun a c => a + c.2.MaxMemory) 0

/-- Everything the aggregator's per-pod body does to the record at the
pod's key (lines appending the pod, counting it, the limits check and
the metrics fold).  The Go loop over `podMetrics.Containers` performs
the four independent accumulations (two maxima, two totals) in one
pass; they are decomposed into the four folds above.  `none` models the
runtime panic of `totalCPU / int64(len(podMetrics.Containers))` when
the pod's entry has zero containers: the division is not guarded. -/
def applyContrib (metrics : MetricsData) (pod : Pod) (dm : DeploymentMetrics) :
    Option DeploymentMetrics :=
  let dm1 := { dm with Pods := dm.Pods ++ [pod.Name], TotalPods := dm.TotalPods + 1 }
  let dm2 :=
    if podHasLimits pod then dm1
    else { dm1 with PodsWithoutLimits := dm1.PodsWithoutLimits + 1 }
  match lookupA metrics.PodMetrics pod.Name with
  | none => some dm2
  | some pm =>
    let dm3 :=
      { dm2 with
        MaxCPU := containersMaxCPUFold dm2.MaxCPU pm.Containers
        MaxMemory := containersMaxMemoryFold dm2.MaxMemory pm.Containers }
    if pm.Containers.length = 0 then none
    else
      some
        { dm3 with
          AvgCPU := Int.tdiv (containersSumCPU pm.Containers) (pm.Containers.length : Int)
          AvgMemory := Int.tdiv (containersSumMemory pm.Containers) (pm.Containers.length : Int) }

/-- One iteration of the aggregator's pod loop.  getDeploymentForPod
never returns a non-nil error, so the Go `if err != nil` branch is
dead; an empty name skips the pod. -/
def processPod (rsGet : RsLookup) (metrics : MetricsData)
    (acc : List (String × DeploymentMetrics)) (pod : Pod) :
    Option (List (String × DeploymentMetrics)) :=
  let deploymentName := getDeploymentForPod rsGet pod
  if deploymentName = "" then some acc
  else
    let key := pod.Namespace ++ "/" ++ deploymentName
    let dm0 := (lookupA acc key).getD (newDeploymentMetrics deploymentName pod.Namespace)
    match applyContrib metrics pod dm0 with
    | none => none
    | some dm => some (upsert acc key dm)

/-- The aggregator's loop over the pod list, threading the map. -/
def aggAux (rsGet : RsLookup) (metrics : MetricsData)
    (acc : List (String × DeploymentMetrics)) :
    List Pod → Option (List (String × DeploymentMetrics))
  | [] => some acc
  | p :: rest =>
    match processPod rsGet metrics acc p with
    | none => none
    | some acc2 => aggAux rsGet metrics acc2 rest

/-- aggregateDeploymentMetrics from main.go; `none` models a runtime
panic during aggregation. -/
def aggregateDeploymentMetrics (rsGet : RsLookup) (pods : List Pod)
    (metrics : MetricsData) : Option (List (String × DeploymentMetrics)) :=
  aggAux rsGet metrics [] pods

/-! Basic lemmas about the association-list operations and `goMax`. -/

theorem lookupA_upsert_self {β : Type} (m : List (String × β)) (k : String) (v : β) :
    lookupA (upsert m k v) k = some v := by
  induction m with
  | nil => simp [upsert, lookupA]
  | cons hd tl ih =>
    obtain ⟨k1, v1⟩ := hd
    by_cases h : k1 = k
    · simp [upsert, h, lookupA]
    · simp [upsert, h, lookupA, ih]

theorem lookupA_upsert_ne {β : Type} (m : List (String × β)) (k k2 : String) (v : β)
    (h : k2 ≠ k) : lookupA (upsert m k v) k2 = lookupA m k2 := by
  have hk : ¬ k = k2 := fun hh => h hh.symm
  induction m with
  | nil => simp [upsert, lookupA, hk]
  | cons hd tl ih =>
    obtain ⟨k1, v1⟩ := hd
    by_cases h1 : k1 = k
    · subst h1
      simp [upsert, lookupA, hk]
    · by_cases h2 : k1 = k2 <;> simp [upsert, h1, lookupA, h2, ih, h]

theorem goMax_eq_max (a b : Int) : goMax a b = max a b := by
  unfold goMax
  split <;> omega

theorem le_foldl_max (l : List Int) : ∀ b : Int, b ≤ l.foldl max b := by
  induction l with
  | nil => intro b; simp
  | cons x xs ih =>
    intro b
    simpa using le_trans (le_max_left b x) (ih (max b x))

theorem mem_le_foldl_max (l : List Int) : ∀ (b v : Int), v ∈ l → v ≤ l.foldl max b := by
  induction l with
  | nil => intro b v hv; simp at hv
  | cons x xs ih =>
    intro b v hv
    rcases List.mem_cons.mp hv with h | h
    · subst h
      simpa using le_trans (le_max_right b v) (le_foldl_max xs (max b v))
    · simpa using ih (max b x) v h

theorem foldl_max_eq_or_mem (l : List Int) : ∀ b : Int, l.foldl max b = b ∨ l.foldl max b ∈ l := by
  induction l with
  | nil => intro b; left; rfl
  | cons x xs ih =>
    intro b
    rcases ih (max b x) with h | h
    · rcases le_or_lt x b with hx | hx
      · left; simpa [max_eq_left hx] using h
      · right
        have hx2 : List.foldl max b (x :: xs) = x := by
          simpa [max_eq_right (le_of_lt hx)] using h
        rw [hx2]; simp
    · right
      simp only [List.foldl_cons]
      exact List.mem_cons_of_mem x h

theorem foldl_max_mem_of_nonneg (l : List Int) (hne : l ≠ [])
    (hnn : ∀ v ∈ l, 0 ≤ v) : l.foldl max 0 ∈ l := by
  cases l with
  | nil => exact absurd rfl hne
  | cons x xs =>
    have hx : max (0 : Int) x = x := max_eq_right (hnn x (by simp))
    have : List.foldl max 0 (x :: xs) = List.foldl max x xs := by simp [hx]
    rw [this]
    rcases foldl_max_eq_or_mem xs x with h | h
    · rw [h]; simp
    · simp [h]

/-! Observation lists: the usage values a given container (or node)
shows in the successful fetches among the first `n` iterations, in the
order the loop folds them. -/

/-- CPU usage values for container `cname` inside one pod item. -/
def obsInPodCPU (sp : SamplePod) (cname : String) : List Int :=
  sp.Containers.filterMap (fun sc => if sc.Name = cname then some sc.UsageCPU else none)

/-- Memory usage values for container `cname` inside one pod item. -/
def obsInPodMemory (sp : SamplePod) (cname : String) : List Int :=
  sp.Containers.filterMap (fun sc => if sc.Name = cname then some sc.UsageMemory else none)

/-- CPU values for `(pname, cname)` in one pod-metrics response. -/
def itemsObsCPU (items : List SamplePod) (pname cname : String) : List Int :=
  items.flatMap (fun sp => if sp.Name = pname then obsInPodCPU sp cname else [])

/-- Memory values for `(pname, cname)` in one pod-metrics response. -/
def itemsObsMemory (items : List SamplePod) (pname cname : String) : List Int :=
  items.flatMap (fun sp => if sp.Name = pname then obsInPodMemory sp cname else [])

/-- CPU values observed for `(pname, cname)` in the successful pod
fetches among iterations `0 .. n-1`. -/
def observedCPUs (src : MetricsSource) (n : Nat) (pname cname : String) : List Int :=
  (List.range n).flatMap
    (fun k =>
      match src.podSamples k with
      | none => []
      | some items => itemsObsCPU items pname cname)

/-- Memory values observed for `(pname, cname)` in the successful pod
fetches among iterations `0 .. n-1`. -/
def observedMemories (src : MetricsSource) (n : Nat) (pname cname : String) : List Int :=
  (List.range n).flatMap
    (fun k =>
      match src.podSamples k with
      | none => []
      | some items => itemsObsMemory items pname cname)

/-- CPU values observed for node `nname`: the node fetch only happens
in iterations whose pod fetch succeeded. -/
def observedNodeCPUs (src : MetricsSource) (n : Nat) (nname : String) : List Int :=
  (List.range n).flatMap
    (fun k =>
      match src.podSamples k, src.nodeSamples k with
      | some _, some items =>
        items.filterMap (fun nd => if nd.Name = nname then some nd.UsageCPU else none)
      | _, _ => [])

/-- Memory values observed for node `nname`. -/
def observedNodeMemories (src : MetricsSource) (n : Nat) (nname : String) : List Int :=
  (List.range n).flatMap
    (fun k =>
      match src.podSamples k, src.nodeSamples k with
      | some _, some items =>
        items.filterMap (fun nd => if nd.Name = nname then some nd.UsageMemory else none)
      | _, _ => [])

/-- Container entry of the snapshot's pod map, two-level lookup. -/
def lookupContainer (pods : List (String × PodMetrics)) (pname cname : String) :
    Option ContainerMetrics :=
  match lookupA pods pname with
  | none => none
  | some pm => lookupA pm.Containers cname

/-- CPU component of an optional container entry, zero when absent. -/
def cmCPU (o : Option ContainerMetrics) : Int := (o.map ContainerMetrics.MaxCPU).getD 0

/-- Memory component of an optional container entry, zero when absent. -/
def cmMem (o : Option ContainerMetrics) : Int := (o.map ContainerMetrics.MaxMemory).getD 0

/-- Accumulated container CPU maximum after `n` loop iterations. -/
def cpuAt (src : MetricsSource) (n : Nat) (pname cname : String) : Int :=
  cmCPU (lookupContainer (collectLoop src n).data.PodMetrics pname cname)

/-- Accumulated container memory maximum after `n` loop iterations. -/
def memAt (src : MetricsSource) (n : Nat) (pname cname : String) : Int :=
  cmMem (lookupContainer (collectLoop src n).data.PodMetrics pname cname)

/-- Accumulated node CPU maximum after `n` loop iterations. -/
def nodeCPUAt (src : MetricsSource) (n : Nat) (nname : String) : Int :=
  ((lookupA (collectLoop src n).data.NodeMetrics nname).map NodeMetrics.MaxCPU).getD 0

/-- Accumulated node memory maximum after `n` loop iterations. -/
def nodeMemAt (src : MetricsSource) (n : Nat) (nname : String) : Int :=
  ((lookupA (collectLoop src n).data.NodeMetrics nname).map NodeMetrics.MaxMemory).getD 0

/-- CPU component of an optional node entry, zero when absent. -/
def nmCPU (o : Option NodeMetrics) : Int := (o.map NodeMetrics.MaxCPU).getD 0

/-- Memory component of an optional node entry, zero when absent. -/
def nmMem (o : Option NodeMetrics) : Int := (o.map NodeMetrics.MaxMemory).getD 0

theorem cmCPU_getD (o : Option ContainerMetrics) :
    (o.getD ⟨0, 0⟩).MaxCPU = cmCPU o := by cases o <;> simp [cmCPU]

theorem cmMem_getD (o : Option ContainerMetrics) :
    (o.getD ⟨0, 0⟩).MaxMemory = cmMem o := by cases o <;> simp [cmMem]

theorem nmCPU_getD (o : Option NodeMetrics) :
    (o.getD ⟨0, 0⟩).MaxCPU = nmCPU o := by cases o <;> simp [nmCPU]

theorem nmMem_getD (o : Option NodeMetrics) :
    (o.getD ⟨0, 0⟩).MaxMemory = nmMem o := by cases o <;> simp [nmMem]

/-- Effect of one pod item's container fold on a single container key:
the entry's maxima are the max-fold of its observed values in this item
over their previous value (zero when the entry did not exist). -/
theorem containersFold_lookup (cname : String) (scs : List SampleContainer) :
    ∀ cs : List (String × ContainerMetrics),
      cmCPU (lookupA (List.foldl
          (fun cs sc => upsert cs sc.Name (foldContainer ((lookupA cs sc.Name).getD ⟨0, 0⟩) sc))
          cs scs) cname)
        = List.foldl max (cmCPU (lookupA cs cname))
            (scs.filterMap (fun sc => if sc.Name = cname then some sc.UsageCPU else none))
      ∧ cmMem (lookupA (List.foldl
          (fun cs sc => upsert cs sc.Name (foldContainer ((lookupA cs sc.Name).getD ⟨0, 0⟩) sc))
          cs scs) cname)
        = List.foldl max (cmMem (lookupA cs cname))
            (scs.filterMap (fun sc => if sc.Name = cname then some sc.UsageMemory else none)) := by
  induction scs with
  | nil => intro cs; simp
  | cons sc rest ih =>
    intro cs
    simp only [List.foldl_cons, List.filterMap_cons]
    obtain ⟨ih1, ih2⟩ :=
      ih (upsert cs sc.Name (foldContainer ((lookupA cs sc.Name).getD ⟨0, 0⟩) sc))
    by_cases h : sc.Name = cname
    · subst h
      have hself :
          lookupA (upsert cs sc.Name (foldContainer ((lookupA cs sc.Name).getD ⟨0, 0⟩) sc))
            sc.Name = some (foldContainer ((lookupA cs sc.Name).getD ⟨0, 0⟩) sc) :=
        lookupA_upsert_self cs sc.Name _
      constructor
      · rw [ih1, hself]
        simp [cmCPU, foldContainer, cmCPU_getD, goMax_eq_max]
      · rw [ih2, hself]
        simp [cmMem, foldContainer, cmMem_getD, goMax_eq_max]
    · have hne :
          lookupA (upsert cs sc.Name (foldContainer ((lookupA cs sc.Name).getD ⟨0, 0⟩) sc))
            cname = lookupA cs cname :=
        lookupA_upsert_ne cs sc.Name cname _ (fun hh => h hh.symm)
      constructor
      · rw [ih1, hne]; simp [h]
      · rw [ih2, hne]; simp [h]

/-- Bridge between a pod-map entry's container map and `lookupContainer`
through the lazy entry creation of the sampler. -/
theorem lookupContainer_getD (m : List (String × PodMetrics)) (sp : SamplePod)
    (cname : String) :
    cmCPU (lookupA ((lookupA m sp.Name).getD ⟨0, 0, sp.Namespace, []⟩).Containers cname)
        = cmCPU (lookupContainer m sp.Name cname)
      ∧ cmMem (lookupA ((lookupA m sp.Name).getD ⟨0, 0, sp.Namespace, []⟩).Containers cname)
        = cmMem (lookupContainer m sp.Name cname) := by
  cases h : lookupA m sp.Name <;> simp [lookupContainer, h, lookupA, cmCPU, cmMem]

/-- Effect of folding one successful pod-metrics response on a single
container key of the snapshot. -/
theorem foldPodItems_lookup (pname cname : String) (items : List SamplePod) :
    ∀ m : List (String × PodMetrics),
      cmCPU (lookupContainer (foldPodItems m items) pname cname)
        = List.foldl max (cmCPU (lookupContainer m pname cname))
            (itemsObsCPU items pname cname)
      ∧ cmMem (lookupContainer (foldPodItems m items) pname cname)
        = List.foldl max (cmMem (lookupContainer m pname cname))
            (itemsObsMemory items pname cname) := by
  induction items with
  | nil => intro m; simp [foldPodItems, itemsObsCPU, itemsObsMemory]
  | cons sp rest ih =>
    intro m
    have hstep :
        foldPodItems m (sp :: rest)
          = foldPodItems
              (upsert m sp.Name
                (foldSamplePod ((lookupA m sp.Name).getD ⟨0, 0, sp.Namespace, []⟩) sp)) rest := by
      simp [foldPodItems]
    rw [hstep]
    obtain ⟨ih1, ih2⟩ :=
      ih (upsert m sp.Name (foldSamplePod ((lookupA m sp.Name).getD ⟨0, 0, sp.Namespace, []⟩) sp))
    have hobs1 : itemsObsCPU (sp :: rest) pname cname
        = (if sp.Name = pname then obsInPodCPU sp cname else []) ++ itemsObsCPU rest pname cname := by
      simp [itemsObsCPU]
    have hobs2 : itemsObsMemory (sp :: rest) pname cname
        = (if sp.Name = pname then obsInPodMemory sp cname else [])
            ++ itemsObsMemory rest pname cname := by
      simp [itemsObsMemory]
    by_cases h : sp.Name = pname
    · subst h
      have hself : lookupA
          (upsert m sp.Name (foldSamplePod ((lookupA m sp.Name).getD ⟨0, 0, sp.Namespace, []⟩) sp))
          sp.Name = some (foldSamplePod ((lookupA m sp.Name).getD ⟨0, 0, sp.Namespace, []⟩) sp) :=
        lookupA_upsert_self m sp.Name _
      have hcont : lookupContainer
          (upsert m sp.Name (foldSamplePod ((lookupA m sp.Name).getD ⟨0, 0, sp.Namespace, []⟩) sp))
          sp.Name cname
          = lookupA (foldSamplePod ((lookupA m sp.Name).getD ⟨0, 0, sp.Namespace, []⟩) sp).Containers
              cname := by
        simp [lookupContainer, hself]
      obtain ⟨hc1, hc2⟩ := containersFold_lookup cname sp.Containers
        ((lookupA m sp.Name).getD ⟨0, 0, sp.Namespace, []⟩).Containers
      obtain ⟨hg1, hg2⟩ := lookupContainer_getD m sp cname
      constructor
      · rw [ih1, hcont]
        show List.foldl max
            (cmCPU (lookupA (List.foldl _ ((lookupA m sp.Name).getD ⟨0, 0, sp.Namespace, []⟩).Containers sp.Containers) cname)) _ = _
        rw [hc1, hg1, hobs1, if_pos rfl, List.foldl_append]
        rfl
      · rw [ih2, hcont]
        show List.foldl max
            (cmMem (lookupA (List.foldl _ ((lookupA m sp.Name).getD ⟨0, 0, sp.Namespace, []⟩).Containers sp.Containers) cname)) _ = _
        rw [hc2, hg2, hobs2, if_pos rfl, List.foldl_append]
        rfl
    · have hne : lookupA
          (upsert m sp.Name (foldSamplePod ((lookupA m sp.Name).getD ⟨0, 0, sp.Namespace, []⟩) sp))
          pname = lookupA m pname :=
        lookupA_upsert_ne m sp.Name pname _ (fun hh => h hh.symm)
      have hcont : lookupContainer
          (upsert m sp.Name (foldSamplePod ((lookupA m sp.Name).getD ⟨0, 0, sp.Namespace, []⟩) sp))
          pname cname = lookupContainer m pname cname := by
        simp [lookupContainer, hne]
      constructor
      · rw [ih1, hcont, hobs1, if_neg h]; rfl
      · rw [ih2, hcont, hobs2, if_neg h]; rfl

/-- Effect of folding one successful node-metrics response on a single
node key of the snapshot. -/
theorem foldNodeItems_lookup (nname : String) (items : List SampleNode) :
    ∀ m : List (String × NodeMetrics),
      nmCPU (lookupA (foldNodeItems m items) nname)
        = List.foldl max (nmCPU (lookupA m nname))
            (items.filterMap (fun nd => if nd.Name = nname then some nd.UsageCPU else none))
      ∧ nmMem (lookupA (foldNodeItems m items) nname)
        = List.foldl max (nmMem (lookupA m nname))
            (items.filterMap (fun nd => if nd.Name = nname then some nd.UsageMemory else none)) := by
  induction items with
  | nil => intro m; simp [foldNodeItems]
  | cons nd rest ih =>
    intro m
    have hstep : foldNodeItems m (nd :: rest)
        = foldNodeItems
            (upsert m nd.Name
              ⟨goMax ((lookupA m nd.Name).getD ⟨0, 0⟩).MaxCPU nd.UsageCPU,
               goMax ((lookupA m nd.Name).getD ⟨0, 0⟩).MaxMemory nd.UsageMemory⟩) rest := by
      simp [foldNodeItems]
    rw [hstep]
    simp only [List.filterMap_cons]
    obtain ⟨ih1, ih2⟩ := ih (upsert m nd.Name
      ⟨goMax ((lookupA m nd.Name).getD ⟨0, 0⟩).MaxCPU nd.UsageCPU,
       goMax ((lookupA m nd.Name).getD ⟨0, 0⟩).MaxMemory nd.UsageMemory⟩)
    by_cases h : nd.Name = nname
    · subst h
      have hself := lookupA_upsert_self m nd.Name
        (⟨goMax ((lookupA m nd.Name).getD ⟨0, 0⟩).MaxCPU nd.UsageCPU,
          goMax ((lookupA m nd.Name).getD ⟨0, 0⟩).MaxMemory nd.UsageMemory⟩ : NodeMetrics)
      constructor
      · rw [ih1, hself]
        simp [nmCPU, nmCPU_getD, nmMem_getD, goMax_eq_max]
      · rw [ih2, hself]
        simp [nmMem, nmCPU_getD, nmMem_getD, goMax_eq_max]
    · have hne := lookupA_upsert_ne m nd.Name nname
        (⟨goMax ((lookupA m nd.Name).getD ⟨0, 0⟩).MaxCPU nd.UsageCPU,
          goMax ((lookupA m nd.Name).getD ⟨0, 0⟩).MaxMemory nd.UsageMemory⟩ : NodeMetrics)
        (fun hh => h hh.symm)
      constructor
      · rw [ih1, hne]; simp [h]
      · rw [ih2, hne]; simp [h]

/-- Accumulated container maxima after `n` iterations are the max-fold
of all values observed in successful pod fetches so far. -/
theorem collect_container_values (src : MetricsSource) (pname cname : String) :
    ∀ n : Nat,
      cpuAt src n pname cname = List.foldl max 0 (observedCPUs src n pname cname)
      ∧ memAt src n pname cname = List.foldl max 0 (observedMemories src n pname cname) := by
  intro n
  induction n with
  | zero =>
    simp [cpuAt, memAt, collectLoop, emptyMetricsData, lookupContainer, lookupA,
      cmCPU, cmMem, observedCPUs, observedMemories]
  | succ n ih =>
    obtain ⟨ih1, ih2⟩ := ih
    cases hp : src.podSamples n with
    | none =>
      have hobs1 : observedCPUs src (n + 1) pname cname = observedCPUs src n pname cname := by
        simp [observedCPUs, List.range_succ, hp]
      have hobs2 : observedMemories src (n + 1) pname cname
          = observedMemories src n pname cname := by
        simp [observedMemories, List.range_succ, hp]
      have hc : cpuAt src (n + 1) pname cname = cpuAt src n pname cname := by
        simp [cpuAt, collectLoop, collectStep, hp]
      have hm : memAt src (n + 1) pname cname = memAt src n pname cname := by
        simp [memAt, collectLoop, collectStep, hp]
      exact ⟨by rw [hc, hobs1, ih1], by rw [hm, hobs2, ih2]⟩
    | some pitems =>
      have hdata : (collectLoop src (n + 1)).data.PodMetrics
          = foldPodItems (collectLoop src n).data.PodMetrics pitems := by
        cases hn : src.nodeSamples n <;> simp [collectLoop, collectStep, hp, hn]
      have hobs1 : observedCPUs src (n + 1) pname cname
          = observedCPUs src n pname cname ++ itemsObsCPU pitems pname cname := by
        simp [observedCPUs, List.range_succ, hp]
      have hobs2 : observedMemories src (n + 1) pname cname
          = observedMemories src n pname cname ++ itemsObsMemory pitems pname cname := by
        simp [observedMemories, List.range_succ, hp]
      obtain ⟨hf1, hf2⟩ :=
        foldPodItems_lookup pname cname pitems (collectLoop src n).data.PodMetrics
      constructor
      · show cmCPU (lookupContainer (collectLoop src (n + 1)).data.PodMetrics pname cname) = _
        rw [hdata, hf1, hobs1, List.foldl_append,
          show cmCPU (lookupContainer (collectLoop src n).data.PodMetrics pname cname)
            = cpuAt src n pname cname from rfl, ih1]
      · show cmMem (lookupContainer (collectLoop src (n + 1)).data.PodMetrics pname cname) = _
        rw [hdata, hf2, hobs2, List.foldl_append,
          show cmMem (lookupContainer (collectLoop src n).data.PodMetrics pname cname)
            = memAt src n pname cname from rfl, ih2]

/-- Accumulated node maxima after `n` iterations are the max-fold of
all values observed in iterations whose two fetches both succeeded. -/
theorem collect_node_values (src : MetricsSource) (nname : String) :
    ∀ n : Nat,
      nodeCPUAt src n nname = List.foldl max 0 (observedNodeCPUs src n nname)
      ∧ nodeMemAt src n nname = List.foldl max 0 (observedNodeMemories src n nname) := by
  intro n
  induction n with
  | zero =>
    simp [nodeCPUAt, nodeMemAt, collectLoop, emptyMetricsData, lookupA,
      observedNodeCPUs, observedNodeMemories]
  | succ n ih =>
    obtain ⟨ih1, ih2⟩ := ih
    cases hp : src.podSamples n with
    | none =>
      have hd : (collectLoop src (n + 1)).data.NodeMetrics
          = (collectLoop src n).data.NodeMetrics := by
        simp [collectLoop, collectStep, hp]
      have ho1 : observedNodeCPUs src (n + 1) nname = observedNodeCPUs src n nname := by
        simp [observedNodeCPUs, List.range_succ, hp]
      have ho2 : observedNodeMemories src (n + 1) nname = observedNodeMemories src n nname := by
        simp [observedNodeMemories, List.range_succ, hp]
      exact ⟨by rw [nodeCPUAt, hd, ho1]; exact ih1, by rw [nodeMemAt, hd, ho2]; exact ih2⟩
    | some pitems =>
      cases hn : src.nodeSamples n with
      | none =>
        have hd : (collectLoop src (n + 1)).data.NodeMetrics
            = (collectLoop src n).data.NodeMetrics := by
          simp [collectLoop, collectStep, hp, hn]
        have ho1 : observedNodeCPUs src (n + 1) nname = observedNodeCPUs src n nname := by
          simp [observedNodeCPUs, List.range_succ, hp, hn]
        have ho2 : observedNodeMemories src (n + 1) nname
            = observedNodeMemories src n nname := by
          simp [observedNodeMemories, List.range_succ, hp, hn]
        exact ⟨by rw [nodeCPUAt, hd, ho1]; exact ih1, by rw [nodeMemAt, hd, ho2]; exact ih2⟩
      | some nitems =>
        have hd : (collectLoop src (n + 1)).data.NodeMetrics
            = foldNodeItems (collectLoop src n).data.NodeMetrics nitems := by
          simp [collectLoop, collectStep, hp, hn]
        have ho1 : observedNodeCPUs src (n + 1) nname
            = observedNodeCPUs src n nname
              ++ nitems.filterMap (fun nd => if nd.Name = nname then some nd.UsageCPU else none) := by
          simp [observedNodeCPUs, List.range_succ, hp, hn]
        have ho2 : observedNodeMemories src (n + 1) nname
            = observedNodeMemories src n nname
              ++ nitems.filterMap (fun nd => if nd.Name = nname then some nd.UsageMemory else none) := by
          simp [observedNodeMemories, List.range_succ, hp, hn]
        obtain ⟨hf1, hf2⟩ :=
          foldNodeItems_lookup nname nitems (collectLoop src n).data.NodeMetrics
        constructor
        · show nmCPU (lookupA (collectLoop src (n + 1)).data.NodeMetrics nname) = _
          rw [hd, hf1, ho1, List.foldl_append,
            show nmCPU (lookupA (collectLoop src n).data.NodeMetrics nname)
              = nodeCPUAt src n nname from rfl, ih1]
        · show nmMem (lookupA (collectLoop src (n + 1)).data.NodeMetrics nname) = _
          rw [hd, hf2, ho2, List.foldl_append,
            show nmMem (lookupA (collectLoop src n).data.NodeMetrics nname)
              = nodeMemAt src n nname from rfl, ih2]

/-- Step monotonicity for the four accumulated quantities. -/
theorem collect_values_mono (src : MetricsSource) (pname cname nname : String) :
    ∀ i j : Nat, i ≤ j →
      cpuAt src i pname cname ≤ cpuAt src j pname cname
      ∧ memAt src i pname cname ≤ memAt src j pname cname
      ∧ nodeCPUAt src i nname ≤ nodeCPUAt src j nname
      ∧ nodeMemAt src i nname ≤ nodeMemAt src j nname := by
  intro i j hij
  induction j with
  | zero =>
    have : i = 0 := Nat.le_zero.mp hij
    subst this
    exact ⟨le_refl _, le_refl _, le_refl _, le_refl _⟩
  | succ j ihj =>
    rcases Nat.lt_or_ge i (j + 1) with hlt | hge
    · have hle : i ≤ j := Nat.lt_succ_iff.mp hlt
      obtain ⟨m1, m2, m3, m4⟩ := ihj hle
      obtain ⟨e1, e2⟩ := collect_container_values src pname cname (j + 1)
      obtain ⟨f1, f2⟩ := collect_container_values src pname cname j
      obtain ⟨g1, g2⟩ := collect_node_values src nname (j + 1)
      obtain ⟨k1, k2⟩ := collect_node_values src nname j
      have hobs1 : ∃ t, observedCPUs src (j + 1) pname cname
          = observedCPUs src j pname cname ++ t := by
        cases hp : src.podSamples j with
        | none => exact ⟨[], by simp [observedCPUs, List.range_succ, hp]⟩
        | some ps =>
          exact ⟨itemsObsCPU ps pname cname, by simp [observedCPUs, List.range_succ, hp]⟩
      have hobs2 : ∃ t, observedMemories src (j + 1) pname cname
          = observedMemories src j pname cname ++ t := by
        cases hp : src.podSamples j with
        | none => exact ⟨[], by simp [observedMemories, List.range_succ, hp]⟩
        | some ps =>
          exact ⟨itemsObsMemory ps pname cname, by simp [observedMemories, List.range_succ, hp]⟩
      have hobs3 : ∃ t, observedNodeCPUs src (j + 1) nname
          = observedNodeCPUs src j nname ++ t := by
        cases hp : src.podSamples j with
        | none => exact ⟨[], by simp [observedNodeCPUs, List.range_succ, hp]⟩
        | some ps =>
          cases hn : src.nodeSamples j with
          | none => exact ⟨[], by simp [observedNodeCPUs, List.range_succ, hp, hn]⟩
          | some ns2 =>
            exact ⟨ns2.filterMap (fun nd => if nd.Name = nname then some nd.UsageCPU else none),
              by simp [observedNodeCPUs, List.range_succ, hp, hn]⟩
      have hobs4 : ∃ t, observedNodeMemories src (j + 1) nname
          = observedNodeMemories src j nname ++ t := by
        cases hp : src.podSamples j with
        | none => exact ⟨[], by simp [observedNodeMemories, List.range_succ, hp]⟩
        | some ps =>
          cases hn : src.nodeSamples j with
          | none => exact ⟨[], by simp [observedNodeMemories, List.range_succ, hp, hn]⟩
          | some ns2 =>
            exact ⟨ns2.filterMap (fun nd => if nd.Name = nname then some nd.UsageMemory else none),
              by simp [observedNodeMemories, List.range_succ, hp, hn]⟩
      obtain ⟨t1, ht1⟩ := hobs1
      obtain ⟨t2, ht2⟩ := hobs2
      obtain ⟨t3, ht3⟩ := hobs3
      obtain ⟨t4, ht4⟩ := hobs4
      refine ⟨le_trans m1 ?_, le_trans m2 ?_, le_trans m3 ?_, le_trans m4 ?_⟩
      · rw [e1, f1, ht1, List.foldl_append]; exact le_foldl_max _ _
      · rw [e2, f2, ht2, List.foldl_append]; exact le_foldl_max _ _
      · rw [g1, k1, ht3, List.foldl_append]; exact le_foldl_max _ _
      · rw [g2, k2, ht4, List.foldl_append]; exact le_foldl_max _ _
    · have : i = j + 1 := le_antisymm hij hge
      subst this
      exact ⟨le_refl _, le_refl _, le_refl _, le_refl _⟩

/-- C6: as successfully fetched samples are folded in, each container
entry's maxCPU/maxMemory and each node entry's maxCPU/maxMemory are
monotonically non-decreasing, and after the last of the
`iterationCount period` iterations each equals the true maximum of all
successfully observed values for that container (or node): every
observed value is bounded by the final value, and the final value is
itself one of the observed values whenever any were observed.  The
non-negativity hypotheses reflect the data model (usage readings are
integers ≥ 0). -/
theorem c6_max_accumulation_monotone_and_exact (src : MetricsSource) (period : Int)
    (pname cname nname : String)
    (h1 : ∀ v ∈ observedCPUs src (iterationCount period) pname cname, 0 ≤ v)
    (h2 : ∀ v ∈ observedMemories src (iterationCount period) pname cname, 0 ≤ v)
    (h3 : ∀ v ∈ observedNodeCPUs src (iterationCount period) nname, 0 ≤ v)
    (h4 : ∀ v ∈ observedNodeMemories src (iterationCount period) nname, 0 ≤ v) :
    (∀ i j : Nat, i ≤ j →
      cpuAt src i pname cname ≤ cpuAt src j pname cname
      ∧ memAt src i pname cname ≤ memAt src j pname cname
      ∧ nodeCPUAt src i nname ≤ nodeCPUAt src j nname
      ∧ nodeMemAt src i nname ≤ nodeMemAt src j nname)
    ∧ ((∀ v ∈ observedCPUs src (iterationCount period) pname cname,
          v ≤ cpuAt src (iterationCount period) pname cname)
       ∧ (observedCPUs src (iterationCount period) pname cname ≠ [] →
          cpuAt src (iterationCount period) pname cname
            ∈ observedCPUs src (iterationCount period) pname cname))
    ∧ ((∀ v ∈ observedMemories src (iterationCount period) pname cname,
          v ≤ memAt src (iterationCount period) pname cname)
       ∧ (observedMemories src (iterationCount period) pname cname ≠ [] →
          memAt src (iterationCount period) pname cname
            ∈ observedMemories src (iterationCount period) pname cname))
    ∧ ((∀ v ∈ observedNodeCPUs src (iterationCount period) nname,
          v ≤ nodeCPUAt src (iterationCount period) nname)
       ∧ (observedNodeCPUs src (iterationCount period) nname ≠ [] →
          nodeCPUAt src (iterationCount period) nname
            ∈ observedNodeCPUs src (iterationCount period) nname))
    ∧ ((∀ v ∈ observedNodeMemories src (iterationCount period) nname,
          v ≤ nodeMemAt src (iterationCount period) nname)
       ∧ (observedNodeMemories src (iterationCount period) nname ≠ [] →
          nodeMemAt src (iterationCount period) nname
            ∈ observedNodeMemories src (iterationCount period) nname)) := by
  obtain ⟨e1, e2⟩ := collect_container_values src pname cname (iterationCount period)
  obtain ⟨e3, e4⟩ := collect_node_values src nname (iterationCount period)
  refine ⟨collect_values_mono src pname cname nname, ⟨?_, ?_⟩, ⟨?_, ?_⟩, ⟨?_, ?_⟩, ⟨?_, ?_⟩⟩
  · intro v hv; rw [e1]; exact mem_le_foldl_max _ 0 v hv
  · intro hne; rw [e1]; exact foldl_max_mem_of_nonneg _ hne h1
  · intro v hv; rw [e2]; exact mem_le_foldl_max _ 0 v hv
  · intro hne; rw [e2]; exact foldl_max_mem_of_nonneg _ hne h2
  · intro v hv; rw [e3]; exact mem_le_foldl_max _ 0 v hv
  · intro hne; rw [e3]; exact foldl_max_mem_of_nonneg _ hne h3
  · intro v hv; rw [e4]; exact mem_le_foldl_max _ 0 v hv
  · intro hne; rw [e4]; exact foldl_max_mem_of_nonneg _ hne h4

/-- Concrete three-iteration source used to witness C6: the middle
iteration's pod fetch fails. -/
def c6src : MetricsSource :=
  { probeOK := true
    podSamples := fun k =>
      if k = 0 then some [⟨"p", "ns", [⟨"c", 100, 50⟩]⟩]
      else if k = 1 then none
      else if k = 2 then some [⟨"p", "ns", [⟨"c", 70, 80⟩]⟩]
      else none
    nodeSamples := fun k =>
      if k = 0 then some [⟨"n1", 10, 20⟩]
      else if k = 2 then some [⟨"n1", 30, 5⟩]
      else none }

/-- Witness for C6 at a concrete source and period (three iterations). -/
theorem c6_witness :
    ((∀ v ∈ observedCPUs c6src (iterationCount 90000000000) "p" "c", 0 ≤ v)
     ∧ (∀ v ∈ observedMemories c6src (iterationCount 90000000000) "p" "c", 0 ≤ v)
     ∧ (∀ v ∈ observedNodeCPUs c6src (iterationCount 90000000000) "n1", 0 ≤ v)
     ∧ (∀ v ∈ observedNodeMemories c6src (iterationCount 90000000000) "n1", 0 ≤ v))
    ∧ ((∀ i j : Nat, i ≤ j →
        cpuAt c6src i "p" "c" ≤ cpuAt c6src j "p" "c"
        ∧ memAt c6src i "p" "c" ≤ memAt c6src j "p" "c"
        ∧ nodeCPUAt c6src i "n1" ≤ nodeCPUAt c6src j "n1"
        ∧ nodeMemAt c6src i "n1" ≤ nodeMemAt c6src j "n1")
      ∧ ((∀ v ∈ observedCPUs c6src (iterationCount 90000000000) "p" "c",
            v ≤ cpuAt c6src (iterationCount 90000000000) "p" "c")
         ∧ (observedCPUs c6src (iterationCount 90000000000) "p" "c" ≠ [] →
            cpuAt c6src (iterationCount 90000000000) "p" "c"
              ∈ observedCPUs c6src (iterationCount 90000000000) "p" "c"))
      ∧ ((∀ v ∈ observedMemories c6src (iterationCount 90000000000) "p" "c",
            v ≤ memAt c6src (iterationCount 90000000000) "p" "c")
         ∧ (observedMemories c6src (iterationCount 90000000000) "p" "c" ≠ [] →
            memAt c6src (iterationCount 90000000000) "p" "c"
              ∈ observedMemories c6src (iterationCount 90000000000) "p" "c"))
      ∧ ((∀ v ∈ observedNodeCPUs c6src (iterationCount 90000000000) "n1",
            v ≤ nodeCPUAt c6src (iterationCount 90000000000) "n1")
         ∧ (observedNodeCPUs c6src (iterationCount 90000000000) "n1" ≠ [] →
            nodeCPUAt c6src (iterationCount 90000000000) "n1"
              ∈ observedNodeCPUs c6src (iterationCount 90000000000) "n1"))
      ∧ ((∀ v ∈ observedNodeMemories c6src (iterationCount 90000000000) "n1",
            v ≤ nodeMemAt c6src (iterationCount 90000000000) "n1")
         ∧ (observedNodeMemories c6src (iterationCount 90000000000) "n1" ≠ [] →
            nodeMemAt c6src (iterationCount 90000000000) "n1"
              ∈ observedNodeMemories c6src (iterationCount 90000000000) "n1"))) :=
  ⟨⟨by decide, by decide, by decide, by decide⟩,
   c6_max_accumulation_monotone_and_exact c6src 90000000000 "p" "c" "n1"
     (by decide) (by decide) (by decide) (by decide)⟩

/-- C7: with a successful probe and a window strictly smaller than the
sampling interval, zero iterations run: the result is a non-null empty
snapshot and no pod or node fetch is performed. -/
theorem c7_small_window_empty_snapshot (src : MetricsSource) (period : Int)
    (hpr : src.probeOK = true) (hlt : period < sampleInterval) :
    collectMetrics src period = some emptyMetricsData
    ∧ (collectRun src period).podFetches = 0
    ∧ (collectRun src period).nodeFetches = 0 := by
  have hle : Int.tdiv period sampleInterval ≤ 0 := by
    rcases le_or_lt 0 period with h0 | h0
    · exact le_of_eq (Int.tdiv_eq_zero_of_lt h0 hlt)
    · have hnn : 0 ≤ Int.tdiv (-period) sampleInterval :=
        Int.tdiv_nonneg (by omega) (by norm_num [sampleInterval])
      have hneg := Int.neg_tdiv period sampleInterval
      omega
  have hit : iterationCount period = 0 := by
    unfold iterationCount
    exact Int.toNat_eq_zero.mpr hle
  refine ⟨?_, ?_, ?_⟩ <;>
    simp [collectMetrics, collectRun, checkMetricsServer, hpr, hit, collectLoop]

/-- Concrete source used to witness C7. -/
def c7src : MetricsSource := ⟨true, fun _ => some [⟨"p", "ns", []⟩], fun _ => some []⟩

/-- Witness for C7 at a concrete source and a 5-nanosecond window. -/
theorem c7_witness :
    (c7src.probeOK = true ∧ (5 : Int) < sampleInterval)
    ∧ (collectMetrics c7src 5 = some emptyMetricsData
       ∧ (collectRun c7src 5).podFetches = 0
       ∧ (collectRun c7src 5).nodeFetches = 0) :=
  ⟨⟨rfl, by decide⟩, c7_small_window_empty_snapshot c7src 5 rfl (by decide)⟩

/-- C5: when the single pre-sampling probe fails, collectMetrics
returns the error outcome (no snapshot) and performs no pod fetch, no
node fetch and no sleep at all. -/
theorem c5_probe_failure_no_iterations (src : MetricsSource) (period : Int)
    (h : src.probeOK = false) :
    collectMetrics src period = none
    ∧ collectRun src period = ⟨none, 0, 0, 0⟩ := by
  constructor <;> simp [collectMetrics, collectRun, checkMetricsServer, h]

/-- Concrete source used to witness C5: the probe fails although every
fetch would succeed. -/
def c5src : MetricsSource := ⟨false, fun _ => some [⟨"p", "ns", []⟩], fun _ => some []⟩

/-- Witness for C5 at a concrete source and a ten-minute window. -/
theorem c5_witness :
    c5src.probeOK = false
    ∧ (collectMetrics c5src 600000000000 = none
       ∧ collectRun c5src 600000000000 = ⟨none, 0, 0, 0⟩) :=
  ⟨rfl, c5_probe_failure_no_iterations c5src 600000000000 rfl⟩

/-- C4 (amended): a failed pod fetch skips the whole iteration (only
the pod-fetch count advances: no snapshot change, no node fetch, no
sleep); a failed node fetch skips only the node-side updates — the pod
updates of the same iteration are kept — and also skips the sleep,
because `continue` jumps past `time.Sleep`. -/
theorem c4_fetch_failure_iteration_effect (src : MetricsSource) (i : Nat) (st : CollectState) :
    (src.podSamples i = none →
      collectStep src i st = { st with podFetches := st.podFetches + 1 })
    ∧ (∀ ps, src.podSamples i = some ps → src.nodeSamples i = none →
      collectStep src i st =
        { st with
          data := { st.data with PodMetrics := foldPodItems st.data.PodMetrics ps }
          podFetches := st.podFetches + 1
          nodeFetches := st.nodeFetches + 1 }) := by
  constructor
  · intro h; simp [collectStep, h]
  · intro ps hp hn; simp [collectStep, hp, hn]

/-- Concrete one-iteration source whose node fetch fails. -/
def c4src : MetricsSource :=
  ⟨true, fun k => if k = 0 then some [⟨"p", "ns", [⟨"c", 5, 7⟩]⟩] else none, fun _ => none⟩

/-- Counterexample to C4 as stated: in the iteration whose node fetch
fails, the snapshot is NOT left unchanged (the pod updates were already
applied), and no interval wait happens before the next iteration. -/
theorem c4_counterexample :
    c4src.nodeSamples 0 = none
    ∧ (collectLoop c4src 1).data ≠ (collectLoop c4src 0).data
    ∧ (collectLoop c4src 1).sleeps = 0 := by decide

/-- Witness for the amended C4: both failure shapes evaluated at
concrete inputs via the theorem. -/
theorem c4_witness :
    collectStep c4src 1 ⟨emptyMetricsData, 1, 0, 0⟩ = ⟨emptyMetricsData, 2, 0, 0⟩
    ∧ collectStep c4src 0 ⟨emptyMetricsData, 0, 0, 0⟩
        = ⟨⟨[("p", ⟨0, 0, "ns", [("c", ⟨5, 7⟩)]⟩)], []⟩, 1, 1, 0⟩ := by
  constructor
  · exact (c4_fetch_failure_iteration_effect c4src 1 ⟨emptyMetricsData, 1, 0, 0⟩).1 rfl
  · exact (c4_fetch_failure_iteration_effect c4src 0 ⟨emptyMetricsData, 0, 0, 0⟩).2
      [⟨"p", "ns", [⟨"c", 5, 7⟩]⟩] rfl rfl

/-! Aggregator analysis: contributors, panic characterization, and the
characterization of the aggregate map as a per-key fold. -/

/-- Key a pod resolves to in the aggregate map (`namespace + "/" +
deploymentName`), `none` when the pod has no owning deployment. -/
def podKey (rsGet : RsLookup) (pod : Pod) : Option String :=
  let d := getDeploymentForPod rsGet pod
  if d = "" then none else some (pod.Namespace ++ "/" ++ d)

/-- Pods of the input list that resolve to key `k`, in input order. -/
def contribs (rsGet : RsLookup) (k : String) (pods : List Pod) : List Pod :=
  pods.filter (fun p => podKey rsGet p == some k)

/-- Container CPU maxima recorded in the snapshot for a pod, in map
order (empty when the pod has no snapshot entry). -/
def podObsCPUs (metrics : MetricsData) (p : Pod) : List Int :=
  match lookupA metrics.PodMetrics p.Name with
  | none => []
  | some pm => pm.Containers.map (fun c => c.2.MaxCPU)

/-- Container memory maxima recorded in the snapshot for a pod. -/
def podObsMems (metrics : MetricsData) (p : Pod) : List Int :=
  match lookupA metrics.PodMetrics p.Name with
  | none => []
  | some pm => pm.Containers.map (fun c => c.2.MaxMemory)

/-- Whether a pod has a snapshot entry with zero observed containers
(the shape that makes the aggregator's division panic). -/
def podEntryEmpty (metrics : MetricsData) (p : Pod) : Bool :=
  match lookupA metrics.PodMetrics p.Name with
  | none => false
  | some pm => pm.Containers.length == 0

/-- Whether the aggregator's per-pod body panics on this pod: it
resolves to a deployment and its snapshot entry has zero containers. -/
def podPanics (rsGet : RsLookup) (metrics : MetricsData) (p : Pod) : Bool :=
  !(podKey rsGet p == none) && podEntryEmpty metrics p

/-- Per-pod average of the recorded container CPU maxima, as the
aggregator computes it (Go division truncates toward zero). -/
def podAvgCPU (metrics : MetricsData) (p : Pod) : Int :=
  match lookupA metrics.PodMetrics p.Name with
  | none => 0
  | some pm => Int.tdiv (containersSumCPU pm.Containers) (pm.Containers.length : Int)

/-- Per-pod average of the recorded container memory maxima. -/
def podAvgMem (metrics : MetricsData) (p : Pod) : Int :=
  match lookupA metrics.PodMetrics p.Name with
  | none => 0
  | some pm => Int.tdiv (containersSumMemory pm.Containers) (pm.Containers.length : Int)

/-- Last contributor (in input order) that has a snapshot entry; its
per-pod average is what survives in the aggregate. -/
def lastEntryContrib (metrics : MetricsData) (cs : List Pod) : Option Pod :=
  (cs.filter (fun p => (lookupA metrics.PodMetrics p.Name).isSome)).getLast?

/-- Sequential fold of the per-pod body over the contributors of one
key, starting from a given record. -/
def foldContribs (metrics : MetricsData) (dm : DeploymentMetrics) :
    List Pod → Option DeploymentMetrics
  | [] => some dm
  | p :: rest =>
    match applyContrib metrics p dm with
    | none => none
    | some dm2 => foldContribs metrics dm2 rest

/-- Value of the aggregate map at one key, described as a fold over
that key's contributors: an existing record is folded further, a fresh
record is created from the first contributor. -/
def keyResult (rsGet : RsLookup) (metrics : MetricsData)
    (A : Option DeploymentMetrics) (cs : List Pod) : Option DeploymentMetrics :=
  match A with
  | some dm => foldContribs metrics dm cs
  | none =>
    match cs with
    | [] => none
    | p :: _ =>
      foldContribs metrics
        (newDeploymentMetrics (getDeploymentForPod rsGet p) p.Namespace) cs

theorem keyResult_nil (rsGet : RsLookup) (metrics : MetricsData)
    (A : Option DeploymentMetrics) : keyResult rsGet metrics A [] = A := by
  cases A <;> simp [keyResult, foldContribs]

theorem applyContrib_none_iff (metrics : MetricsData) (p : Pod) (dm : DeploymentMetrics) :
    applyContrib metrics p dm = none ↔ podEntryEmpty metrics p = true := by
  unfold applyContrib podEntryEmpty
  cases hl : lookupA metrics.PodMetrics p.Name with
  | none => simp
  | some pm => by_cases hz : pm.Containers.length = 0 <;> simp [hz]

theorem processPod_none_iff (rsGet : RsLookup) (metrics : MetricsData)
    (acc : List (String × DeploymentMetrics)) (p : Pod) :
    processPod rsGet metrics acc p = none ↔ podPanics rsGet metrics p = true := by
  unfold processPod podPanics podKey
  by_cases hd : getDeploymentForPod rsGet p = ""
  · simp [hd]
  · cases hac : applyContrib metrics p
        ((lookupA acc (p.Namespace ++ "/" ++ getDeploymentForPod rsGet p)).getD
          (newDeploymentMetrics (getDeploymentForPod rsGet p) p.Namespace)) with
    | none =>
      have := (applyContrib_none_iff metrics p _).mp hac
      simp [hd, hac, this]
    | some dm =>
      have hne : applyContrib metrics p
          ((lookupA acc (p.Namespace ++ "/" ++ getDeploymentForPod rsGet p)).getD
            (newDeploymentMetrics (getDeploymentForPod rsGet p) p.Namespace)) ≠ none := by
        simp [hac]
      have hee : podEntryEmpty metrics p = false := by
        rcases Bool.eq_false_or_eq_true (podEntryEmpty metrics p) with h | h
        · exact absurd ((applyContrib_none_iff metrics p _).mpr h) hne
        · exact h
      simp [hd, hac, hee]

theorem aggAux_none_iff (rsGet : RsLookup) (metrics : MetricsData) :
    ∀ (pods : List Pod) (acc : List (String × DeploymentMetrics)),
      aggAux rsGet metrics acc pods = none
        ↔ ∃ p ∈ pods, podPanics rsGet metrics p = true := by
  intro pods
  induction pods with
  | nil => intro acc; simp [aggAux]
  | cons p rest ih =>
    intro acc
    cases hpp : processPod rsGet metrics acc p with
    | none =>
      have hp := (processPod_none_iff rsGet metrics acc p).mp hpp
      simp [aggAux, hpp, hp]
    | some acc2 =>
      have hp : podPanics rsGet metrics p = false := by
        rcases Bool.eq_false_or_eq_true (podPanics rsGet metrics p) with h | h
        · rw [(processPod_none_iff rsGet metrics acc p).mpr h] at hpp
          cases hpp
        · exact h
      simp [aggAux, hpp, ih acc2, hp]

/-- Characterization of the aggregate map: its value at any key is the
per-key fold of that key's contributors over the key's previous value. -/
theorem aggAux_lookup (rsGet : RsLookup) (metrics : MetricsData) :
    ∀ (pods : List Pod) (acc m : List (String × DeploymentMetrics)),
      aggAux rsGet metrics acc pods = some m →
      ∀ k, lookupA m k = keyResult rsGet metrics (lookupA acc k) (contribs rsGet k pods) := by
  intro pods
  induction pods with
  | nil =>
    intro acc m hm k
    have hacc : acc = m := by simpa [aggAux] using hm
    subst hacc
    simp [contribs, keyResult_nil]
  | cons p rest ih =>
    intro acc m hm k
    cases hpp : processPod rsGet metrics acc p with
    | none => simp [aggAux, hpp] at hm
    | some acc2 =>
      have hm2 : aggAux rsGet metrics acc2 rest = some m := by
        simpa [aggAux, hpp] using hm
      have ihk := ih acc2 m hm2 k
      by_cases hd : getDeploymentForPod rsGet p = ""
      · have hacc : acc2 = acc := by
          have h2 : some acc = some acc2 := by simpa [processPod, hd] using hpp
          exact (Option.some.inj h2).symm
        have hkey : podKey rsGet p = none := by simp [podKey, hd]
        have hcon : contribs rsGet k (p :: rest) = contribs rsGet k rest := by
          simp [contribs, List.filter_cons, hkey]
        rw [hacc] at ihk
        rw [hcon]
        exact ihk
      · have hkey : podKey rsGet p
            = some (p.Namespace ++ "/" ++ getDeploymentForPod rsGet p) := by
          simp [podKey, hd]
        cases hac : applyContrib metrics p
            ((lookupA acc (p.Namespace ++ "/" ++ getDeploymentForPod rsGet p)).getD
              (newDeploymentMetrics (getDeploymentForPod rsGet p) p.Namespace)) with
        | none => simp [processPod, hd, hac] at hpp
        | some dm =>
          have hacc2 : acc2
              = upsert acc (p.Namespace ++ "/" ++ getDeploymentForPod rsGet p) dm := by
            have h2 : some (upsert acc (p.Namespace ++ "/" ++ getDeploymentForPod rsGet p) dm)
                = some acc2 := by
              simpa [processPod, hd, hac] using hpp
            exact (Option.some.inj h2).symm
          by_cases hkk : (p.Namespace ++ "/" ++ getDeploymentForPod rsGet p) = k
          · subst hkk
            have hcon : contribs rsGet (p.Namespace ++ "/" ++ getDeploymentForPod rsGet p)
                (p :: rest)
                = p :: contribs rsGet (p.Namespace ++ "/" ++ getDeploymentForPod rsGet p) rest := by
              simp [contribs, List.filter_cons, hkey]
            rw [hacc2, lookupA_upsert_self] at ihk
            rw [hcon, ihk]
            cases hA : lookupA acc (p.Namespace ++ "/" ++ getDeploymentForPod rsGet p) with
            | some dm0 =>
              have hac2 : applyContrib metrics p dm0 = some dm := by
                rw [hA] at hac
                simpa using hac
              simp [keyResult, foldContribs, hac2]
            | none =>
              have hac2 : applyContrib metrics p
                  (newDeploymentMetrics (getDeploymentForPod rsGet p) p.Namespace) = some dm := by
                rw [hA] at hac
                simpa using hac
              simp [keyResult, foldContribs, hac2]
          · have hcon : contribs rsGet k (p :: rest) = contribs rsGet k rest := by
              simp [contribs, List.filter_cons, hkey, hkk]
            have hlk : lookupA acc2 k
                = lookupA acc k := by
              rw [hacc2]
              exact lookupA_upsert_ne acc _ k dm (fun hh => hkk hh.symm)
            rw [hlk] at ihk
            rw [hcon]
            exact ihk

theorem containersMaxCPUFold_eq (init : Int) (cs : List (String × ContainerMetrics)) :
    containersMaxCPUFold init cs = List.foldl max init (cs.map (fun c => c.2.MaxCPU)) := by
  simp [containersMaxCPUFold, List.foldl_map, goMax_eq_max]

theorem containersMaxMemoryFold_eq (init : Int) (cs : List (String × ContainerMetrics)) :
    containersMaxMemoryFold init cs = List.foldl max init (cs.map (fun c => c.2.MaxMemory)) := by
  simp [containersMaxMemoryFold, List.foldl_map, goMax_eq_max]

/-- Field-level description of what one contributor does to a record. -/
theorem applyContrib_spec (metrics : MetricsData) (p : Pod) (dm dm2 : DeploymentMetrics)
    (h : applyContrib metrics p dm = some dm2) :
    dm2.TotalPods = dm.TotalPods + 1
    ∧ dm2.Pods = dm.Pods ++ [p.Name]
    ∧ dm2.PodsWithoutLimits = dm.PodsWithoutLimits + (if podHasLimits p then 0 else 1)
    ∧ dm2.MaxCPU = List.foldl max dm.MaxCPU (podObsCPUs metrics p)
    ∧ dm2.MaxMemory = List.foldl max dm.MaxMemory (podObsMems metrics p)
    ∧ dm2.AvgCPU
        = (if (lookupA metrics.PodMetrics p.Name).isSome then podAvgCPU metrics p else dm.AvgCPU)
    ∧ dm2.AvgMemory
        = (if (lookupA metrics.PodMetrics p.Name).isSome then podAvgMem metrics p else dm.AvgMemory)
    ∧ dm2.Name = dm.Name ∧ dm2.Namespace = dm.Namespace := by
  cases hl : lookupA metrics.PodMetrics p.Name with
  | none =>
    by_cases hpl : podHasLimits p
    · simp [applyContrib, hl, hpl] at h
      subst h
      simp [hl, hpl, podObsCPUs, podObsMems]
    · simp [applyContrib, hl, hpl] at h
      subst h
      simp [hl, hpl, podObsCPUs, podObsMems]
  | some pm =>
    by_cases hz : pm.Containers.length = 0
    · simp [applyContrib, hl, hz] at h
    · by_cases hpl : podHasLimits p
      · simp [applyContrib, hl, hz, hpl] at h
        subst h
        simp [hl, hpl, podObsCPUs, podObsMems, podAvgCPU, podAvgMem,
          containersMaxCPUFold_eq, containersMaxMemoryFold_eq]
      · simp [applyContrib, hl, hz, hpl] at h
        subst h
        simp [hl, hpl, podObsCPUs, podObsMems, podAvgCPU, podAvgMem,
          containersMaxCPUFold_eq, containersMaxMemoryFold_eq]

/-- Field-level description of the per-key contributor fold. -/
theorem foldContribs_spec (metrics : MetricsData) :
    ∀ (cs : List Pod) (dm dm2 : DeploymentMetrics),
      foldContribs metrics dm cs = some dm2 →
      dm2.TotalPods = dm.TotalPods + cs.length
      ∧ dm2.Pods = dm.Pods ++ cs.map Pod.Name
      ∧ dm2.PodsWithoutLimits
          = dm.PodsWithoutLimits + cs.countP (fun p => !podHasLimits p)
      ∧ dm2.MaxCPU = List.foldl max dm.MaxCPU (cs.flatMap (podObsCPUs metrics))
      ∧ dm2.MaxMemory = List.foldl max dm.MaxMemory (cs.flatMap (podObsMems metrics))
      ∧ dm2.AvgCPU = (match lastEntryContrib metrics cs with
          | none => dm.AvgCPU
          | some q => podAvgCPU metrics q)
      ∧ dm2.AvgMemory = (match lastEntryContrib metrics cs with
          | none => dm.AvgMemory
          | some q => podAvgMem metrics q)
      ∧ dm2.Name = dm.Name ∧ dm2.Namespace = dm.Namespace := by
  intro cs
  induction cs with
  | nil =>
    intro dm dm2 h
    have hdm : dm = dm2 := by simpa [foldContribs] using h
    subst hdm
    simp [lastEntryContrib]
  | cons p rest ih =>
    intro dm dm2 h
    cases hac : applyContrib metrics p dm with
    | none => simp [foldContribs, hac] at h
    | some dm1 =>
      have h2 : foldContribs metrics dm1 rest = some dm2 := by
        simpa [foldContribs, hac] using h
      obtain ⟨t1, t2, t3, t4, t5, t6, t7, t8, t9⟩ := ih dm1 dm2 h2
      obtain ⟨a1, a2, a3, a4, a5, a6, a7, a8, a9⟩ := applyContrib_spec metrics p dm dm1 hac
      refine ⟨?_, ?_, ?_, ?_, ?_, ?_, ?_, ?_, ?_⟩
      · rw [t1, a1]; simp; omega
      · rw [t2, a2]; simp
      · rw [t3, a3]
        by_cases hpl : podHasLimits p
        all_goals simp [List.countP_cons, hpl]
        all_goals omega
      · rw [t4, a4]; simp [List.flatMap_cons, List.foldl_append]
      · rw [t5, a5]; simp [List.flatMap_cons, List.foldl_append]
      · rw [t6]
        cases hl : lookupA metrics.PodMetrics p.Name with
        | none =>
          have ha6 : dm1.AvgCPU = dm.AvgCPU := by rw [a6]; simp [hl]
          have hle : lastEntryContrib metrics (p :: rest) = lastEntryContrib metrics rest := by
            simp [lastEntryContrib, List.filter_cons, hl]
          rw [hle, ha6]
        | some pm =>
          have ha6 : dm1.AvgCPU = podAvgCPU metrics p := by rw [a6]; simp [hl]
          have hfil : (p :: rest).filter (fun q => (lookupA metrics.PodMetrics q.Name).isSome)
              = p :: rest.filter (fun q => (lookupA metrics.PodMetrics q.Name).isSome) := by
            simp [List.filter_cons, hl]
          cases hrest : rest.filter (fun q => (lookupA metrics.PodMetrics q.Name).isSome) with
          | nil =>
            have g1 : lastEntryContrib metrics (p :: rest) = some p := by
              simp [lastEntryContrib, hfil, hrest]
            have g2 : lastEntryContrib metrics rest = none := by
              simp [lastEntryContrib, hrest]
            rw [g1, g2, ha6]
          | cons q qs =>
            have g1 : lastEntryContrib metrics (p :: rest) = lastEntryContrib metrics rest := by
              simp [lastEntryContrib, hfil, hrest]
            have g2 : (lastEntryContrib metrics rest).isSome := by
              rw [lastEntryContrib, hrest]
              simp [List.getLast?_isSome]
            obtain ⟨r, hr⟩ := Option.isSome_iff_exists.mp g2
            rw [g1, hr]
      · rw [t7]
        cases hl : lookupA metrics.PodMetrics p.Name with
        | none =>
          have ha7 : dm1.AvgMemory = dm.AvgMemory := by rw [a7]; simp [hl]
          have hle : lastEntryContrib metrics (p :: rest) = lastEntryContrib metrics rest := by
            simp [lastEntryContrib, List.filter_cons, hl]
          rw [hle, ha7]
        | some pm =>
          have ha7 : dm1.AvgMemory = podAvgMem metrics p := by rw [a7]; simp [hl]
          have hfil : (p :: rest).filter (fun q => (lookupA metrics.PodMetrics q.Name).isSome)
              = p :: rest.filter (fun q => (lookupA metrics.PodMetrics q.Name).isSome) := by
            simp [List.filter_cons, hl]
          cases hrest : rest.filter (fun q => (lookupA metrics.PodMetrics q.Name).isSome) with
          | nil =>
            have g1 : lastEntryContrib metrics (p :: rest) = some p := by
              simp [lastEntryContrib, hfil, hrest]
            have g2 : lastEntryContrib metrics rest = none := by
              simp [lastEntryContrib, hrest]
            rw [g1, g2, ha7]
          | cons q qs =>
            have g1 : lastEntryContrib metrics (p :: rest) = lastEntryContrib metrics rest := by
              simp [lastEntryContrib, hfil, hrest]
            have g2 : (lastEntryContrib metrics rest).isSome := by
              rw [lastEntryContrib, hrest]
              simp [List.getLast?_isSome]
            obtain ⟨r, hr⟩ := Option.isSome_iff_exists.mp g2
            rw [g1, hr]
      · rw [t8, a8]
      · rw [t9, a9]

theorem foldContribs_isSome (metrics : MetricsData) :
    ∀ (cs : List Pod) (dm : DeploymentMetrics),
      (∀ p ∈ cs, podEntryEmpty metrics p = false) →
      ∃ dm2, foldContribs metrics dm cs = some dm2 := by
  intro cs
  induction cs with
  | nil => intro dm _; exact ⟨dm, rfl⟩
  | cons p rest ih =>
    intro dm h
    cases hac : applyContrib metrics p dm with
    | none =>
      have hempty := (applyContrib_none_iff metrics p dm).mp hac
      rw [h p (by simp)] at hempty
      cases hempty
    | some dm1 =>
      obtain ⟨dm2, hdm2⟩ := ih dm1 (fun q hq => h q (by simp [hq]))
      exact ⟨dm2, by simp [foldContribs, hac, hdm2]⟩

/-- C1 (code defect): a pod that resolves to a deployment and has a
snapshot entry with zero observed containers makes the aggregation
evaluate `totalCPU / 0`: the run crashes (modelled `none`) instead of
guarding the division and leaving the averages unchanged. -/
theorem c1_zero_container_entry_panics (rsGet : RsLookup) (pods : List Pod)
    (metrics : MetricsData) (p : Pod) (pm : PodMetrics)
    (hmem : p ∈ pods)
    (hkey : getDeploymentForPod rsGet p ≠ "")
    (hent : lookupA metrics.PodMetrics p.Name = some pm)
    (hempty : pm.Containers = []) :
    aggregateDeploymentMetrics rsGet pods metrics = none := by
  rw [aggregateDeploymentMetrics]
  exact (aggAux_none_iff rsGet metrics pods []).mpr
    ⟨p, hmem, by simp [podPanics, podKey, hkey, podEntryEmpty, hent, hempty]⟩

/-- Replica-set lookup used in concrete aggregator scenarios: `rs` is
owned by deployment `web`; everything else fails to fetch. -/
def wrs : RsLookup := fun _ n => if n = "rs" then some [⟨"Deployment", "web"⟩] else none

/-- Pod with one zero-container snapshot entry, for the C1 scenario. -/
def c1pod : Pod := ⟨"p0", "ns", [⟨"ReplicaSet", "rs"⟩], []⟩

/-- Snapshot whose entry for `p0` has zero observed containers. -/
def c1metrics : MetricsData := ⟨[("p0", ⟨0, 0, "ns", []⟩)], []⟩

/-- Witness for C1: the concrete failing input evaluated through the
theorem. -/
theorem c1_witness :
    (c1pod ∈ [c1pod]
     ∧ getDeploymentForPod wrs c1pod ≠ ""
     ∧ lookupA c1metrics.PodMetrics c1pod.Name = some ⟨0, 0, "ns", []⟩
     ∧ (⟨0, 0, "ns", []⟩ : PodMetrics).Containers = [])
    ∧ aggregateDeploymentMetrics wrs [c1pod] c1metrics = none :=
  ⟨⟨by decide, by decide, by decide, rfl⟩,
   c1_zero_container_entry_panics wrs [c1pod] c1metrics c1pod ⟨0, 0, "ns", []⟩
     (by decide) (by decide) (by decide) rfl⟩

/-- Two pods of deployment `web` whose snapshot entries hold one
container each with CPU maxima 100 and 200 (memory 10 and 30). -/
def wpod1 : Pod := ⟨"p1", "ns", [⟨"ReplicaSet", "rs"⟩], []⟩

/-- Second pod of the two-pod scenario. -/
def wpod2 : Pod := ⟨"p2", "ns", [⟨"ReplicaSet", "rs"⟩], []⟩

/-- Snapshot for the two-pod scenario. -/
def wmetrics : MetricsData :=
  ⟨[("p1", ⟨0, 0, "ns", [("c1", ⟨100, 10⟩)]⟩), ("p2", ⟨0, 0, "ns", [("c2", ⟨200, 30⟩)]⟩)], []⟩

/-- Aggregate value the code computes for `[wpod1, wpod2]`. -/
def wdm : DeploymentMetrics := ⟨"web", "ns", ["p1", "p2"], 200, 30, 200, 30, 2, 0, []⟩

/-- Aggregate map the code computes for `[wpod1, wpod2]`. -/
def wagg : List (String × DeploymentMetrics) := [("ns/web", wdm)]

/-- Counterexample to C2 as stated: with containers observed so far
summing to 100 + 200 over 2 containers, the claimed average is 150,
but the code leaves avgCPU = 200 (the last pod's own average: the
running totals are reset for every pod). -/
theorem c2_counterexample :
    aggregateDeploymentMetrics wrs [wpod1, wpod2] wmetrics = some wagg
    ∧ wdm.AvgCPU = 200
    ∧ Int.tdiv (100 + 200) 2 = 150
    ∧ wdm.AvgCPU ≠ Int.tdiv (100 + 200) 2 := by decide

/-- C2 (amended): after aggregation, a deployment's avgCPU/avgMemory
equal the per-pod quotient sum/count of the LAST member pod (in input
order) that has a snapshot entry — not the accumulation over all member
pods; they are 0 when no member pod has an entry. -/
theorem c2_avg_is_last_contributor (rsGet : RsLookup) (pods : List Pod)
    (metrics : MetricsData) (m : List (String × DeploymentMetrics)) (k : String)
    (dm : DeploymentMetrics)
    (hagg : aggregateDeploymentMetrics rsGet pods metrics = some m)
    (hdm : lookupA m k = some dm) :
    (dm.AvgCPU = match lastEntryContrib metrics (contribs rsGet k pods) with
      | none => 0
      | some q => podAvgCPU metrics q)
    ∧ (dm.AvgMemory = match lastEntryContrib metrics (contribs rsGet k pods) with
      | none => 0
      | some q => podAvgMem metrics q) := by
  have hk := aggAux_lookup rsGet metrics pods [] m hagg k
  rw [hdm] at hk
  cases hcs : contribs rsGet k pods with
  | nil => rw [hcs] at hk; simp [keyResult, lookupA] at hk
  | cons p cs2 =>
    rw [hcs] at hk
    have hfc : foldContribs metrics
        (newDeploymentMetrics (getDeploymentForPod rsGet p) p.Namespace) (p :: cs2)
        = some dm := by
      simpa [keyResult, lookupA] using hk.symm
    obtain ⟨_, _, _, _, _, h6, h7, _, _⟩ := foldContribs_spec metrics (p :: cs2) _ dm hfc
    constructor
    · rw [h6]
      cases lastEntryContrib metrics (p :: cs2) <;> simp [newDeploymentMetrics]
    · rw [h7]
      cases lastEntryContrib metrics (p :: cs2) <;> simp [newDeploymentMetrics]

/-- Witness for the amended C2 at the two-pod scenario: the surviving
average is the one of `wpod2`, the last contributor with an entry. -/
theorem c2_witness :
    (aggregateDeploymentMetrics wrs [wpod1, wpod2] wmetrics = some wagg
     ∧ lookupA wagg "ns/web" = some wdm)
    ∧ ((wdm.AvgCPU = match lastEntryContrib wmetrics (contribs wrs "ns/web" [wpod1, wpod2]) with
          | none => 0
          | some q => podAvgCPU wmetrics q)
       ∧ (wdm.AvgMemory = match lastEntryContrib wmetrics (contribs wrs "ns/web" [wpod1, wpod2]) with
          | none => 0
          | some q => podAvgMem wmetrics q)) :=
  ⟨⟨by decide, by decide⟩,
   c2_avg_is_last_contributor wrs [wpod1, wpod2] wmetrics wagg "ns/web" wdm
     (by decide) (by decide)⟩

instance : RightCommutative (max : Int → Int → Int) :=
  ⟨fun b a1 a2 => Max.right_comm b a1 a2⟩

/-- C3 (amended): under permutation of the input pod list, aggregation
panics on one order iff it panics on the other, each key is present in
one result iff in the other, and totalPods, podsWithoutLimits, maxCPU
and maxMemory agree, while the Pods membership list follows each
input's order.  (avgCPU/avgMemory are NOT invariant: they equal the
last contributing pod's own average, see the C2/C3 counterexamples.) -/
theorem c3_perm_invariance (rsGet : RsLookup) (metrics : MetricsData)
    (l l2 : List Pod) (hperm : List.Perm l l2) :
    (aggregateDeploymentMetrics rsGet l metrics = none
      ↔ aggregateDeploymentMetrics rsGet l2 metrics = none)
    ∧ ∀ (m m2 : List (String × DeploymentMetrics)),
        aggregateDeploymentMetrics rsGet l metrics = some m →
        aggregateDeploymentMetrics rsGet l2 metrics = some m2 →
        ∀ k, ((lookupA m k).isSome ↔ (lookupA m2 k).isSome)
          ∧ ∀ dm dm2, lookupA m k = some dm → lookupA m2 k = some dm2 →
              dm.TotalPods = dm2.TotalPods
              ∧ dm.PodsWithoutLimits = dm2.PodsWithoutLimits
              ∧ dm.MaxCPU = dm2.MaxCPU
              ∧ dm.MaxMemory = dm2.MaxMemory
              ∧ dm.Pods = (contribs rsGet k l).map Pod.Name
              ∧ dm2.Pods = (contribs rsGet k l2).map Pod.Name := by
  constructor
  · rw [aggregateDeploymentMetrics, aggregateDeploymentMetrics,
      aggAux_none_iff, aggAux_none_iff]
    constructor
    · rintro ⟨p, hp, hpan⟩; exact ⟨p, hperm.mem_iff.mp hp, hpan⟩
    · rintro ⟨p, hp, hpan⟩; exact ⟨p, hperm.mem_iff.mpr hp, hpan⟩
  · intro m m2 hm hm2 k
    have hcs : List.Perm (contribs rsGet k l) (contribs rsGet k l2) :=
      hperm.filter _
    have hk1 := aggAux_lookup rsGet metrics l [] m hm k
    have hk2 := aggAux_lookup rsGet metrics l2 [] m2 hm2 k
    simp only [lookupA] at hk1 hk2
    have hnopanic : ∀ p ∈ l, podPanics rsGet metrics p = false := by
      intro p hp
      rcases Bool.eq_false_or_eq_true (podPanics rsGet metrics p) with h | h
      · exfalso
        have hnone : aggregateDeploymentMetrics rsGet l metrics = none :=
          (aggAux_none_iff rsGet metrics l []).mpr ⟨p, hp, h⟩
        rw [hm] at hnone
        cases hnone
      · exact h
    have hgood : ∀ p ∈ contribs rsGet k l, podEntryEmpty metrics p = false := by
      intro p hp
      have hmem := (List.mem_filter.mp hp).1
      have hkp : podKey rsGet p = some k := eq_of_beq (List.mem_filter.mp hp).2
      have hpan := hnopanic p hmem
      rw [podPanics, hkp] at hpan
      simpa using hpan
    have hgood2 : ∀ p ∈ contribs rsGet k l2, podEntryEmpty metrics p = false := by
      intro p hp
      exact hgood p (hcs.mem_iff.mpr hp)
    have hcsP := hcs
    cases hcl : contribs rsGet k l with
    | nil =>
      have hcl2 : contribs rsGet k l2 = [] := by
        rw [hcl] at hcsP
        exact hcsP.symm.eq_nil
      rw [hcl, keyResult_nil] at hk1
      rw [hcl2, keyResult_nil] at hk2
      constructor
      · rw [hk1, hk2]
      · intro dm dm2 hdm hdm2
        rw [hdm] at hk1
        cases hk1
    | cons p cs1 =>
      rw [hcl] at hcsP
      cases hcl2 : contribs rsGet k l2 with
      | nil =>
        rw [hcl2] at hcsP
        have := hcsP.length_eq
        simp at this
      | cons q cs2 =>
        rw [hcl2] at hcsP
        obtain ⟨dv, hdv⟩ := foldContribs_isSome metrics (p :: cs1)
          (newDeploymentMetrics (getDeploymentForPod rsGet p) p.Namespace)
          (by rw [← hcl]; exact hgood)
        obtain ⟨dv2, hdv2⟩ := foldContribs_isSome metrics (q :: cs2)
          (newDeploymentMetrics (getDeploymentForPod rsGet q) q.Namespace)
          (by rw [← hcl2]; exact hgood2)
        rw [hcl] at hk1
        rw [hcl2] at hk2
        have hk1e : lookupA m k = some dv := by
          rw [hk1]; simpa [keyResult] using hdv
        have hk2e : lookupA m2 k = some dv2 := by
          rw [hk2]; simpa [keyResult] using hdv2
        constructor
        · rw [hk1e, hk2e]; simp
        · intro dm dm2 hdm hdm2
          rw [hk1e] at hdm
          rw [hk2e] at hdm2
          obtain rfl : dv = dm := Option.some.inj hdm
          obtain rfl : dv2 = dm2 := Option.some.inj hdm2
          obtain ⟨s1, s2, s3, s4, s5, _, _, _, _⟩ :=
            foldContribs_spec metrics (p :: cs1) _ _ hdv
          obtain ⟨u1, u2, u3, u4, u5, _, _, _, _⟩ :=
            foldContribs_spec metrics (q :: cs2) _ _ hdv2
          refine ⟨?_, ?_, ?_, ?_, ?_, ?_⟩
          · rw [s1, u1]
            simp [newDeploymentMetrics, hcsP.length_eq]
          · rw [s3, u3]
            simp [newDeploymentMetrics, hcsP.countP_eq]
          · rw [s4, u4]
            simp only [newDeploymentMetrics]
            exact (hcsP.flatMap_right (podObsCPUs metrics)).foldl_eq 0
          · rw [s5, u5]
            simp only [newDeploymentMetrics]
            exact (hcsP.flatMap_right (podObsMems metrics)).foldl_eq 0
          · rw [s2]
            simp [newDeploymentMetrics]
          · rw [u2]
            simp [newDeploymentMetrics]

/-- Aggregate value the code computes for the reversed order
`[wpod2, wpod1]`: the averages differ from `wdm`. -/
def wdm2 : DeploymentMetrics := ⟨"web", "ns", ["p2", "p1"], 200, 30, 100, 10, 2, 0, []⟩

/-- Aggregate map the code computes for `[wpod2, wpod1]`. -/
def wagg2 : List (String × DeploymentMetrics) := [("ns/web", wdm2)]

/-- Counterexample to C3 as stated: the two orders of the same two pods
yield avgCPU 200 and 100 respectively, so avgCPU is not invariant
under permutation of the input list. -/
theorem c3_counterexample :
    List.Perm [wpod1, wpod2] [wpod2, wpod1]
    ∧ aggregateDeploymentMetrics wrs [wpod1, wpod2] wmetrics = some wagg
    ∧ aggregateDeploymentMetrics wrs [wpod2, wpod1] wmetrics = some wagg2
    ∧ wdm.AvgCPU ≠ wdm2.AvgCPU
    ∧ wdm.AvgMemory ≠ wdm2.AvgMemory :=
  ⟨List.Perm.swap wpod2 wpod1 [], by decide, by decide, by decide, by decide⟩

/-- Witness for the amended C3 at the two-pod scenario. -/
theorem c3_witness :
    wdm.TotalPods = wdm2.TotalPods
    ∧ wdm.PodsWithoutLimits = wdm2.PodsWithoutLimits
    ∧ wdm.MaxCPU = wdm2.MaxCPU
    ∧ wdm.MaxMemory = wdm2.MaxMemory
    ∧ wdm.Pods = (contribs wrs "ns/web" [wpod1, wpod2]).map Pod.Name
    ∧ wdm2.Pods = (contribs wrs "ns/web" [wpod2, wpod1]).map Pod.Name :=
  ((c3_perm_invariance wrs wmetrics [wpod1, wpod2] [wpod2, wpod1]
      (List.Perm.swap wpod2 wpod1 [])).2 wagg wagg2 (by decide) (by decide) "ns/web").2
    wdm wdm2 (by decide) (by decide)

theorem findDeploymentOwner_eq_none (refs : List OwnerReference)
    (h : ∀ r ∈ refs, r.Kind ≠ "Deployment") : findDeploymentOwner refs = none := by
  induction refs with
  | nil => rfl
  | cons r rest ih =>
    simp only [findDeploymentOwner]
    rw [if_neg (h r (by simp))]
    exact ih (fun q hq => h q (by simp [hq]))

/-- C8: a pod whose owner references contain no ReplicaSet, or whose
every fetchable ReplicaSet owner has no Deployment owner, resolves to
the empty name and leaves the aggregate map untouched; a failed
replica-set fetch is skipped and scanning continues with the remaining
owner references. -/
theorem c8_unresolvable_pod_excluded (rsGet : RsLookup) (p : Pod) :
    ((∀ o ∈ p.OwnerReferences, o.Kind = "ReplicaSet" →
        ∀ refs, rsGet p.Namespace o.Name = some refs →
          ∀ r ∈ refs, r.Kind ≠ "Deployment") →
      getDeploymentForPod rsGet p = ""
      ∧ ∀ (metrics : MetricsData) (acc : List (String × DeploymentMetrics)),
          processPod rsGet metrics acc p = some acc)
    ∧ (∀ (o : OwnerReference) (rest : List OwnerReference),
        o.Kind = "ReplicaSet" → rsGet p.Namespace o.Name = none →
        scanOwnerRefs rsGet p.Namespace (o :: rest) = scanOwnerRefs rsGet p.Namespace rest) := by
  constructor
  · intro hyp
    have hscan : ∀ owners : List OwnerReference,
        (∀ o ∈ owners, o.Kind = "ReplicaSet" →
          ∀ refs, rsGet p.Namespace o.Name = some refs → ∀ r ∈ refs, r.Kind ≠ "Deployment") →
        scanOwnerRefs rsGet p.Namespace owners = "" := by
      intro owners
      induction owners with
      | nil => intro _; rfl
      | cons o rest ih =>
        intro h
        simp only [scanOwnerRefs]
        by_cases hk : o.Kind = "ReplicaSet"
        · rw [if_pos hk]
          cases hg : rsGet p.Namespace o.Name with
          | none => exact ih (fun q hq => h q (by simp [hq]))
          | some refs =>
            show (match findDeploymentOwner refs with
              | some d => d
              | none => scanOwnerRefs rsGet p.Namespace rest) = ""
            rw [findDeploymentOwner_eq_none refs (h o (by simp) hk refs hg)]
            exact ih (fun q hq => h q (by simp [hq]))
        · rw [if_neg hk]
          exact ih (fun q hq => h q (by simp [hq]))
    have hd : getDeploymentForPod rsGet p = "" := hscan p.OwnerReferences hyp
    exact ⟨hd, fun metrics acc => by simp [processPod, hd]⟩
  · intro o rest hk hg
    simp [scanOwnerRefs, hk, hg]

/-- Lookup for the C8 scenario: `rsy` fetches a replica-set owned only
by a StatefulSet, every other fetch fails. -/
def c8rs : RsLookup := fun _ n => if n = "rsy" then some [⟨"StatefulSet", "s"⟩] else none

/-- Pod for the C8 scenario: one ReplicaSet reference whose fetch
fails, one whose replica-set has no Deployment owner, one non-ReplicaSet
reference. -/
def c8pod : Pod :=
  ⟨"p8", "ns", [⟨"ReplicaSet", "rsx"⟩, ⟨"ReplicaSet", "rsy"⟩, ⟨"Job", "j"⟩], []⟩

/-- Witness for C8 at the concrete scenario. -/
theorem c8_witness :
    (getDeploymentForPod c8rs c8pod = ""
     ∧ processPod c8rs wmetrics [] c8pod = some [])
    ∧ scanOwnerRefs c8rs c8pod.Namespace
        (⟨"ReplicaSet", "rsx"⟩ :: [⟨"ReplicaSet", "rsy"⟩, ⟨"Job", "j"⟩])
      = scanOwnerRefs c8rs c8pod.Namespace [⟨"ReplicaSet", "rsy"⟩, ⟨"Job", "j"⟩] := by
  have hyp : ∀ o ∈ c8pod.OwnerReferences, o.Kind = "ReplicaSet" →
      ∀ refs, c8rs c8pod.Namespace o.Name = some refs →
        ∀ r ∈ refs, r.Kind ≠ "Deployment" := by
    intro o ho hk refs hg r hr
    have ho2 : o = ⟨"ReplicaSet", "rsx"⟩ ∨ o = ⟨"ReplicaSet", "rsy"⟩ ∨ o = ⟨"Job", "j"⟩ := by
      simpa [c8pod] using ho
    rcases ho2 with rfl | rfl | rfl
    · simp [c8rs] at hg
    · simp [c8rs] at hg
      subst hg
      have hr2 : r = ⟨"StatefulSet", "s"⟩ := by simpa using hr
      subst hr2
      decide
    · simp [c8rs] at hg
  have happ := (c8_unresolvable_pod_excluded c8rs c8pod).1 hyp
  exact ⟨⟨happ.1, happ.2 wmetrics []⟩,
    (c8_unresolvable_pod_excluded c8rs c8pod).2 ⟨"ReplicaSet", "rsx"⟩
      [⟨"ReplicaSet", "rsy"⟩, ⟨"Job", "j"⟩] rfl rfl⟩

/-- C9: a pod folded into an aggregate increments podsWithoutLimits
exactly when some spec container has a zero CPU limit or a zero memory
limit; with zero containers the pod counts as having limits. -/
theorem c9_pods_without_limits_iff (rsGet : RsLookup) (metrics : MetricsData)
    (acc : List (String × DeploymentMetrics)) (p : Pod) (k : String)
    (m : List (String × DeploymentMetrics))
    (hkey : podKey rsGet p = some k)
    (hm : processPod rsGet metrics acc p = some m) :
    ((lookupA m k).map DeploymentMetrics.PodsWithoutLimits).getD 0
      = ((lookupA acc k).map DeploymentMetrics.PodsWithoutLimits).getD 0
        + (if podHasLimits p then 0 else 1)
    ∧ (podHasLimits p = false
        ↔ ∃ c ∈ p.SpecContainers, c.LimitsCPU = 0 ∨ c.LimitsMemory = 0) := by
  by_cases hd : getDeploymentForPod rsGet p = ""
  · rw [podKey] at hkey
    simp [hd] at hkey
  · have hkeq : k = p.Namespace ++ "/" ++ getDeploymentForPod rsGet p := by
      rw [podKey] at hkey
      simp only [hd, if_neg hd] at hkey
      exact (Option.some.inj hkey).symm
    subst hkeq
    constructor
    · cases hac : applyContrib metrics p
          ((lookupA acc (p.Namespace ++ "/" ++ getDeploymentForPod rsGet p)).getD
            (newDeploymentMetrics (getDeploymentForPod rsGet p) p.Namespace)) with
      | none => simp [processPod, hd, hac] at hm
      | some dm =>
        have hmm : m = upsert acc (p.Namespace ++ "/" ++ getDeploymentForPod rsGet p) dm := by
          have h2 : some (upsert acc (p.Namespace ++ "/" ++ getDeploymentForPod rsGet p) dm)
              = some m := by
            simpa [processPod, hd, hac] using hm
          exact (Option.some.inj h2).symm
        obtain ⟨_, _, a3, _, _, _, _, _, _⟩ := applyContrib_spec metrics p _ dm hac
        rw [hmm, lookupA_upsert_self]
        show dm.PodsWithoutLimits
            = ((lookupA acc (p.Namespace ++ "/" ++ getDeploymentForPod rsGet p)).map
                DeploymentMetrics.PodsWithoutLimits).getD 0 + (if podHasLimits p then 0 else 1)
        rw [a3]
        cases hA : lookupA acc (p.Namespace ++ "/" ++ getDeploymentForPod rsGet p) with
        | none => simp [hA, newDeploymentMetrics]
        | some dm0 => simp [hA]
    · constructor
      · intro hf
        have hforall : ¬ ∀ c ∈ p.SpecContainers, c.LimitsCPU ≠ 0 ∧ c.LimitsMemory ≠ 0 := by
          intro hall
          have : podHasLimits p = true := by
            simp [podHasLimits, List.all_eq_true]
            intro c hc
            exact ⟨(hall c hc).1, (hall c hc).2⟩
          rw [hf] at this
          cases this
        push_neg at hforall
        obtain ⟨c, hc, h3⟩ := hforall
        by_cases hcpu : c.LimitsCPU = 0
        · exact ⟨c, hc, Or.inl hcpu⟩
        · exact ⟨c, hc, Or.inr (h3 hcpu)⟩
      · rintro ⟨c, hc, hor⟩
        rcases Bool.eq_false_or_eq_true (podHasLimits p) with h | h
        · exfalso
          have hall : ∀ x ∈ p.SpecContainers, x.LimitsCPU ≠ 0 ∧ x.LimitsMemory ≠ 0 := by
            have h2 := h
            simp [podHasLimits, List.all_eq_true] at h2
            exact h2
          rcases hor with h0 | h0
          · exact (hall c hc).1 h0
          · exact (hall c hc).2 h0
        · exact h

/-- Pod with one container whose CPU limit is zero although the memory
limit is set. -/
def c9pod : Pod := ⟨"p9", "ns", [⟨"ReplicaSet", "rs"⟩], [⟨"c", 0, 5⟩]⟩

/-- Aggregate value the code computes for `[c9pod]` with no snapshot
entry: counted in podsWithoutLimits. -/
def c9dm : DeploymentMetrics := ⟨"web", "ns", ["p9"], 0, 0, 0, 0, 1, 1, []⟩

/-- Aggregate map computed for the C9 scenario. -/
def c9agg : List (String × DeploymentMetrics) := [("ns/web", c9dm)]

/-- Witness for C9: a pod whose single container has CPU limit 0 and
memory limit 5 increments podsWithoutLimits. -/
theorem c9_witness :
    (podKey wrs c9pod = some "ns/web"
     ∧ processPod wrs wmetrics [] c9pod = some c9agg)
    ∧ (((lookupA c9agg "ns/web").map DeploymentMetrics.PodsWithoutLimits).getD 0
        = ((lookupA ([] : List (String × DeploymentMetrics)) "ns/web").map
            DeploymentMetrics.PodsWithoutLimits).getD 0
          + (if podHasLimits c9pod then 0 else 1)
       ∧ (podHasLimits c9pod = false
          ↔ ∃ c ∈ c9pod.SpecContainers, c.LimitsCPU = 0 ∨ c.LimitsMemory = 0)) :=
  ⟨⟨by decide, by decide⟩,
   c9_pods_without_limits_iff wrs wmetrics [] c9pod "ns/web" c9agg (by decide) (by decide)⟩

/-- Source for the C10 scenario: two iterations observe two pods that
share the name `pX` but live in different namespaces. -/
def c10src (nsA nsB : String) (v1 v2 m1 m2 : Int) : MetricsSource :=
  { probeOK := true
    podSamples := fun k =>
      if k = 0 then some [⟨"pX", nsA, [⟨"c", v1, m1⟩]⟩]
      else if k = 1 then some [⟨"pX", nsB, [⟨"c", v2, m2⟩]⟩]
      else none
    nodeSamples := fun _ => some [] }

/-- Pod record named `pX` living in the second namespace, owned by
deployment `web` through replica-set `rs`. -/
def c10podB (nsB : String) : Pod := ⟨"pX", nsB, [⟨"ReplicaSet", "rs"⟩], []⟩

/-- C10: the snapshot's pod map is keyed by name alone — observations
of two same-named pods from different namespaces are max-folded into a
single entry whose Namespace is the first pod's — and the aggregator's
name-only join attributes that merged usage to a deployment in the
second pod's namespace. -/
theorem c10_pod_map_keyed_by_name_only (nsA nsB : String) (v1 v2 m1 m2 : Int)
    (h1 : 0 ≤ v1) (h2 : 0 ≤ m1) :
    (collectLoop (c10src nsA nsB v1 v2 m1 m2) 2).data.PodMetrics
      = [("pX", ⟨0, 0, nsA, [("c", ⟨max v1 v2, max m1 m2⟩)]⟩)]
    ∧ aggregateDeploymentMetrics wrs [c10podB nsB]
        (collectLoop (c10src nsA nsB v1 v2 m1 m2) 2).data
      = some [(nsB ++ "/" ++ "web",
          ⟨"web", nsB, ["pX"], max v1 v2, max m1 m2, max v1 v2, max m1 m2, 1, 0, []⟩)] := by
  have e3 : max (0 : Int) (max v1 v2) = max v1 v2 :=
    max_eq_right (le_trans h1 (le_max_left v1 v2))
  have e4 : max (0 : Int) (max m1 m2) = max m1 m2 :=
    max_eq_right (le_trans h2 (le_max_left m1 m2))
  have hpart1 : (collectLoop (c10src nsA nsB v1 v2 m1 m2) 2).data.PodMetrics
      = [("pX", ⟨0, 0, nsA, [("c", ⟨max v1 v2, max m1 m2⟩)]⟩)] := by
    simp [collectLoop, collectStep, c10src, foldPodItems, foldSamplePod, foldContainer,
      foldNodeItems, lookupA, upsert, emptyMetricsData, goMax_eq_max,
      max_eq_right h1, max_eq_right h2]
  have hagg : ∀ md : MetricsData,
      md.PodMetrics = [("pX", ⟨0, 0, nsA, [("c", ⟨max v1 v2, max m1 m2⟩)]⟩)] →
      aggregateDeploymentMetrics wrs [c10podB nsB] md
        = some [(nsB ++ "/" ++ "web",
            ⟨"web", nsB, ["pX"], max v1 v2, max m1 m2, max v1 v2, max m1 m2, 1, 0, []⟩)] := by
    intro md hmd
    simp [aggregateDeploymentMetrics, aggAux, processPod, getDeploymentForPod, scanOwnerRefs,
      findDeploymentOwner, wrs, applyContrib, podHasLimits, newDeploymentMetrics, lookupA,
      upsert, containersMaxCPUFold, containersMaxMemoryFold, containersSumCPU,
      containersSumMemory, goMax_eq_max, hmd, c10podB, e3, e4, Int.tdiv_one]
  exact ⟨hpart1, hagg (collectLoop (c10src nsA nsB v1 v2 m1 m2) 2).data hpart1⟩

/-- Witness for C10 at concrete namespaces and usage values. -/
theorem c10_witness :
    ((0 : Int) ≤ 3 ∧ (0 : Int) ≤ 2)
    ∧ ((collectLoop (c10src "nsa" "nsb" 3 5 2 1) 2).data.PodMetrics
        = [("pX", ⟨0, 0, "nsa", [("c", ⟨max 3 5, max 2 1⟩)]⟩)]
      ∧ aggregateDeploymentMetrics wrs [c10podB "nsb"]
          (collectLoop (c10src "nsa" "nsb" 3 5 2 1) 2).data
        = some [("nsb" ++ "/" ++ "web",
            ⟨"web", "nsb", ["pX"], max 3 5, max 2 1, max 3 5, max 2 1, 1, 0, []⟩)]) :=
  ⟨⟨by decide, by decide⟩,
   c10_pod_map_keyed_by_name_only "nsa" "nsb" 3 5 2 1 (by decide) (by decide)⟩
